import Mathlib

/-!
Verification of the email synchronization and threading engine of a
sales-campaign mail manager.

The definitions below are a shallow embedding of the TypeScript source:

* `src/server/storage.ts` — the `DatabaseStorage` class: `syncReceivedEmail`,
  `syncSentEmail`, `createOrUpdateThread`, `refreshThreadMessageCount`,
  `refreshThreadUnreadCount`, `getThreadMessages`, `updateThreadStatus`.
* the Express routes file — the `POST /api/emails/sync` batch loop and the
  `POST /api/emails/send-bulk` template-rendering block.

Modelling conventions:

* The Postgres tables (`receivedEmails`, `sentEmails`, `emailThreads`) become
  lists of rows inside a `Store`; `gen_random_uuid()` primary keys become a
  `nextId : Nat` counter; `db.select().where(eq(col, v))` destructured to its
  first row becomes `List.find?`; `db.update().where(...)` becomes a `map`
  that rewrites the matching rows; `db.insert()` appends.
* Timestamps are integers (milliseconds); `new Date(x).getTime()` comparisons
  become `Int` comparisons.
* A nullable column is an `Option`.  JavaScript `x || d` on strings (empty
  string is falsy) is `strOr`; drizzle's `set` skipping `undefined` values on
  an update is `setOpt`.
* Payload columns that no storage logic ever reads (`senderName`,
  `bodyPreview`, `receivedBy`, `sentBy`, `recipientName`, `templateId`,
  `datasetId`, `contactId`, `opened`, `replied`, `isReply`,
  `originalEmailId`) and the audit columns `createdAt` / `updatedAt` are
  omitted: they are copied verbatim next to the modelled fields and no claim
  mentions them.
-/

/-- JavaScript `o || d` for a nullable string: `null`/`undefined` and the
empty string are falsy. -/
def strOr (o : Option String) (d : String) : String :=
  match o with
  | none => d
  | some s => if s = "" then d else s

/-- Drizzle `update().set` semantics for a nullable column: an `undefined`
value in the set object is skipped (the stored value is kept), a present
value overwrites. -/
def setOpt {α : Type} (new old : Option α) : Option α :=
  match new with
  | some v => some v
  | none => old

/-- `Array.from(new Set(xs))`: deduplicate keeping the first occurrence of
each element, in order. -/
def dedupFirstAux (seen : List String) : List String → List String
  | [] => []
  | x :: xs =>
    if x ∈ seen then dedupFirstAux seen xs
    else x :: dedupFirstAux (x :: seen) xs

/-- `Array.from(new Set(xs))` with `seen` starting empty. -/
def dedupFirst (l : List String) : List String := dedupFirstAux [] l

/-- A row of the `received_emails` table (columns read by the storage
logic). -/
structure ReceivedEmailRow where
  id : Nat
  messageId : Option String
  conversationId : Option String
  senderEmail : String
  subject : String
  body : String
  isRead : Bool
  receivedAt : Int
  threadId : Option Nat
deriving DecidableEq, Repr

/-- A row of the `sent_emails` table (columns read by the storage logic). -/
structure SentEmailRow where
  id : Nat
  messageId : Option String
  conversationId : Option String
  recipientEmail : String
  subject : String
  body : String
  status : String
  leadStatus : String
  sentAt : Option Int
  threadId : Option Nat
deriving DecidableEq, Repr

/-- A row of the `email_threads` table. -/
structure EmailThreadRow where
  id : Nat
  conversationId : String
  subject : String
  participantEmails : List String
  leadStatus : String
  messageCount : Nat
  unreadCount : Nat
  lastMessageAt : Int
deriving DecidableEq, Repr

/-- `Omit<InsertReceivedEmail, 'id'>`: the argument of `syncReceivedEmail`. -/
structure InsertReceivedEmail where
  messageId : Option String
  conversationId : Option String
  senderEmail : String
  subject : String
  body : String
  isRead : Bool
  receivedAt : Int
deriving DecidableEq, Repr

/-- `Omit<InsertSentEmail, 'id'>`: the argument of `syncSentEmail`.
`leadStatus` and `sentAt` are optional (the table defaults them). -/
structure InsertSentEmail where
  messageId : Option String
  conversationId : Option String
  recipientEmail : String
  subject : String
  body : String
  status : String
  leadStatus : Option String
  sentAt : Option Int
deriving DecidableEq, Repr

/-- `Omit<InsertEmailThread, 'id' | 'messageCount'>`: the candidate passed to
`createOrUpdateThread`. -/
structure InsertEmailThread where
  conversationId : String
  subject : String
  participantEmails : List String
  leadStatus : String
  lastMessageAt : Int
  unreadCount : Nat
deriving DecidableEq, Repr

/-- The database state: the three tables touched by the sync engine and the
primary-key generator. -/
structure Store where
  receivedEmails : List ReceivedEmailRow
  sentEmails : List SentEmailRow
  emailThreads : List EmailThreadRow
  nextId : Nat
deriving DecidableEq, Repr

/-- `storage.createOrUpdateThread`: look up an existing thread by
`conversationId`; on a hit merge (most-recent subject, strictly-monotonic
`lastMessageAt`, additive positive `unreadCount`, participant set union),
on a miss insert the candidate with `messageCount = 0`.  Returns the
created/updated row and the new store. -/
def createOrUpdateThread (thread : InsertEmailThread) (s : Store) :
    EmailThreadRow × Store :=
  match s.emailThreads.find? (fun t => t.conversationId == thread.conversationId) with
  | some existing =>
    let shouldUpdateTime := thread.lastMessageAt > existing.lastMessageAt
    let allParticipants :=
      dedupFirst (existing.participantEmails ++ thread.participantEmails)
    let updated : EmailThreadRow :=
      { existing with
        subject := thread.subject
        lastMessageAt :=
          if shouldUpdateTime then thread.lastMessageAt else existing.lastMessageAt
        unreadCount :=
          if thread.unreadCount > 0 then existing.unreadCount + thread.unreadCount
          else existing.unreadCount
        participantEmails := allParticipants }
    (updated,
      { s with
        emailThreads :=
          s.emailThreads.map (fun t => if t.id == existing.id then updated else t) })
  | none =>
    let created : EmailThreadRow :=
      { id := s.nextId
        conversationId := thread.conversationId
        subject := thread.subject
        participantEmails := thread.participantEmails
        leadStatus := thread.leadStatus
        messageCount := 0
        unreadCount := thread.unreadCount
        lastMessageAt := thread.lastMessageAt }
    (created,
      { s with
        emailThreads := s.emailThreads ++ [created]
        nextId := s.nextId + 1 })

/-- `storage.refreshThreadMessageCount`: count the sent rows plus the
received rows whose `threadId` equals the given id and write the sum into
the thread's `messageCount`. -/
def refreshThreadMessageCount (threadId : Nat) (s : Store) : Store :=
  let sentCount := (s.sentEmails.filter (fun e => e.threadId == some threadId)).length
  let receivedCount :=
    (s.receivedEmails.filter (fun e => e.threadId == some threadId)).length
  let totalCount := sentCount + receivedCount
  { s with
    emailThreads :=
      s.emailThreads.map (fun t =>
        if t.id == threadId then { t with messageCount := totalCount } else t) }

/-- `storage.refreshThreadUnreadCount`: count the received rows on the
thread with `isRead = false` and write it into `unreadCount`. -/
def refreshThreadUnreadCount (threadId : Nat) (s : Store) : Store :=
  let unreadCount :=
    (s.receivedEmails.filter
      (fun e => e.threadId == some threadId && e.isRead == false)).length
  { s with
    emailThreads :=
      s.emailThreads.map (fun t =>
        if t.id == threadId then { t with unreadCount := unreadCount } else t) }

/-- The row written by the insert branch of `syncReceivedEmail`
(`values({...email, threadId: thread.id})`). -/
def receivedRowOfInsert (email : InsertReceivedEmail) (id tid : Nat) :
    ReceivedEmailRow :=
  { id := id
    messageId := email.messageId
    conversationId := email.conversationId
    senderEmail := email.senderEmail
    subject := email.subject
    body := email.body
    isRead := email.isRead
    receivedAt := email.receivedAt
    threadId := some tid }

/-- The row written by the update branch of `syncReceivedEmail`
(`set({...email, threadId: thread.id})`; drizzle skips `undefined`
values, so an absent nullable field keeps the stored value). -/
def applyReceivedUpdate (email : InsertReceivedEmail) (existing : ReceivedEmailRow)
    (tid : Nat) : ReceivedEmailRow :=
  { existing with
    messageId := setOpt email.messageId existing.messageId
    conversationId := setOpt email.conversationId existing.conversationId
    senderEmail := email.senderEmail
    subject := email.subject
    body := email.body
    isRead := email.isRead
    receivedAt := email.receivedAt
    threadId := some tid }

/-- The thread candidate built inside `syncReceivedEmail`. -/
def receivedThreadCandidate (email : InsertReceivedEmail) : InsertEmailThread :=
  { conversationId := strOr email.conversationId ""
    subject := email.subject
    participantEmails := [email.senderEmail]
    leadStatus := "unassigned"
    lastMessageAt := email.receivedAt
    unreadCount := 0 }

/-- `storage.syncReceivedEmail`: dedup by `messageId` (lookup key
`email.messageId || ''`); on a hit resolve the thread and rewrite the row in
place with the new `threadId`; on a miss resolve the thread, insert the row
and recompute both thread counters. -/
def syncReceivedEmail (email : InsertReceivedEmail) (s : Store) :
    ReceivedEmailRow × Store :=
  match s.receivedEmails.find?
      (fun r => r.messageId == some (strOr email.messageId "")) with
  | some existing =>
    let res := createOrUpdateThread (receivedThreadCandidate email) s
    let updated := applyReceivedUpdate email existing res.1.id
    (updated,
      { res.2 with
        receivedEmails :=
          res.2.receivedEmails.map (fun r => if r.id == existing.id then updated else r) })
  | none =>
    let res := createOrUpdateThread (receivedThreadCandidate email) s
    let created := receivedRowOfInsert email res.2.nextId res.1.id
    let s2 := { res.2 with
                receivedEmails := res.2.receivedEmails ++ [created]
                nextId := res.2.nextId + 1 }
    let s3 := refreshThreadMessageCount res.1.id s2
    let s4 := refreshThreadUnreadCount res.1.id s3
    (created, s4)

/-- The row written by the insert branch of `syncSentEmail`; `leadStatus`
and `sentAt` fall back to the column defaults (`'unassigned'`, `now()`). -/
def sentRowOfInsert (email : InsertSentEmail) (now : Int) (id tid : Nat) :
    SentEmailRow :=
  { id := id
    messageId := email.messageId
    conversationId := email.conversationId
    recipientEmail := email.recipientEmail
    subject := email.subject
    body := email.body
    status := email.status
    leadStatus := email.leadStatus.getD "unassigned"
    sentAt := some (email.sentAt.getD now)
    threadId := some tid }

/-- The row written by the update branch of `syncSentEmail` (drizzle skips
`undefined` values in `set`). -/
def applySentUpdate (email : InsertSentEmail) (existing : SentEmailRow)
    (tid : Nat) : SentEmailRow :=
  { existing with
    messageId := setOpt email.messageId existing.messageId
    conversationId := setOpt email.conversationId existing.conversationId
    recipientEmail := email.recipientEmail
    subject := email.subject
    body := email.body
    status := email.status
    leadStatus := email.leadStatus.getD existing.leadStatus
    sentAt := setOpt email.sentAt existing.sentAt
    threadId := some tid }

/-- The thread candidate built inside `syncSentEmail`
(`leadStatus: email.leadStatus || 'unassigned'`,
`lastMessageAt: email.sentAt || new Date()`). -/
def sentThreadCandidate (email : InsertSentEmail) (now : Int) : InsertEmailThread :=
  { conversationId := strOr email.conversationId ""
    subject := email.subject
    participantEmails := [email.recipientEmail]
    leadStatus := strOr email.leadStatus "unassigned"
    lastMessageAt := email.sentAt.getD now
    unreadCount := 0 }

/-- `storage.syncSentEmail`; `now` is the wall clock read by `new Date()`. -/
def syncSentEmail (email : InsertSentEmail) (now : Int) (s : Store) :
    SentEmailRow × Store :=
  match s.sentEmails.find?
      (fun r => r.messageId == some (strOr email.messageId "")) with
  | some existing =>
    let res := createOrUpdateThread (sentThreadCandidate email now) s
    let updated := applySentUpdate email existing res.1.id
    (updated,
      { res.2 with
        sentEmails :=
          res.2.sentEmails.map (fun r => if r.id == existing.id then updated else r) })
  | none =>
    let res := createOrUpdateThread (sentThreadCandidate email now) s
    let created := sentRowOfInsert email now res.2.nextId res.1.id
    let s2 := { res.2 with
                sentEmails := res.2.sentEmails ++ [created]
                nextId := res.2.nextId + 1 }
    let s3 := refreshThreadMessageCount res.1.id s2
    let s4 := refreshThreadUnreadCount res.1.id s3
    (created, s4)

/-- `storage.updateThreadStatus`: overwrite the thread's `leadStatus` (the
returned row is not needed by any claim and is not modelled). -/
def updateThreadStatus (threadId : Nat) (leadStatus : String) (s : Store) : Store :=
  { s with
    emailThreads :=
      s.emailThreads.map (fun t =>
        if t.id == threadId then { t with leadStatus := leadStatus } else t) }

/-- The tagged sent/received union built by `getThreadMessages` for
display. -/
inductive ThreadMessage where
  | sent (e : SentEmailRow)
  | received (e : ReceivedEmailRow)
deriving DecidableEq, Repr

/-- The sort key of the display comparator:
`new Date(('sentAt' in m ? m.sentAt : m.receivedAt) || 0).getTime()` —
a null timestamp reads as epoch zero. -/
def occurredKey : ThreadMessage → Int
  | .sent e => e.sentAt.getD 0
  | .received e => e.receivedAt

/-- `storage.getThreadMessages`: match by `threadId`, adding a
`conversationId` fallback only when the thread row exists and its
`conversationId` is truthy (non-empty); merge the two tables and sort
ascending by `occurredKey` (V8 `Array.sort` is stable). -/
def getThreadMessages (threadId : Nat) (s : Store) : List ThreadMessage :=
  let thread := s.emailThreads.find? (fun t => t.id == threadId)
  let useConv : Option String :=
    match thread with
    | some t => if t.conversationId = "" then none else some t.conversationId
    | none => none
  let sent := s.sentEmails.filter (fun e =>
    match useConv with
    | some c => e.threadId == some threadId || e.conversationId == some c
    | none => e.threadId == some threadId)
  let received := s.receivedEmails.filter (fun e =>
    match useConv with
    | some c => e.threadId == some threadId || e.conversationId == some c
    | none => e.threadId == some threadId)
  (sent.map ThreadMessage.sent ++ received.map ThreadMessage.received).mergeSort
    (fun a b => occurredKey a ≤ occurredKey b)

/-- One pass of the sync batch loop in the `POST /api/emails/sync` handler
(and identically in the auto-sync timer): `for (const message of batch)
await storage.sync…Email(…)` sits inside the handler's single try/catch,
with no per-message catch (unlike the bulk-send loop, which catches per
contact).  `step` abstracts the fallible per-message storage call — each
database round-trip may throw.  The first failure ends the pass via the
outer catch; rows written by earlier iterations persist (there is no
transaction).  The Bool reports whether the pass was aborted. -/
def routeSyncPass {α : Type} (step : α → Store → Except String Store) :
    List α → Store → Store × Bool
  | [], s => (s, false)
  | e :: rest, s =>
    match step e s with
    | .ok s' => routeSyncPass step rest s'
    | .error _ => (s, true)

/-- Modelled from the spec: "any failure to resolve/create a thread aborts
processing of that single message only; the batch continues with the next
raw message" — the skip-and-continue loop the spec describes, which is
absent from the source (the handlers have no per-message catch). -/
def specSyncPassSkip {α : Type} (step : α → Store → Except String Store) :
    List α → Store → Store
  | [], s => s
  | e :: rest, s =>
    match step e s with
    | .ok s' => specSyncPassSkip step rest s'
    | .error _ => specSyncPassSkip step rest s

/-- A concrete fallible per-message operation: processing fails on a marked
message (standing for a thread-resolution/database error on that message),
and otherwise performs the real `syncReceivedEmail`. -/
def stepDemo : InsertReceivedEmail → Store → Except String Store :=
  fun e s =>
    if e.subject = "FAIL" then .error "thread resolution failed"
    else .ok (syncReceivedEmail e s).2

/-- `syncReceivedEmail` iterated `n` times with the same raw message. -/
def syncReceivedIter (email : InsertReceivedEmail) : Nat → Store → Store
  | 0, s => s
  | n + 1, s => syncReceivedIter email n (syncReceivedEmail email s).2

/-- `syncSentEmail` iterated with the same raw message; `clock k` is the
wall-clock value read during the `k`-th call. -/
def syncSentIterClock (email : InsertSentEmail) (clock : Nat → Int) :
    Nat → Store → Store
  | 0, s => s
  | n + 1, s => syncSentIterClock email clock n (syncSentEmail email (clock n) s).2

/-- A sync-engine call: one `syncReceivedEmail` or one `syncSentEmail`
(with the clock value it reads). -/
inductive SyncOp where
  | recv (email : InsertReceivedEmail)
  | sent (email : InsertSentEmail) (now : Int)
deriving Repr

/-- Run one sync call against the store. -/
def applySyncOp (op : SyncOp) (s : Store) : Store :=
  match op with
  | .recv e => (syncReceivedEmail e s).2
  | .sent e now => (syncSentEmail e now s).2

/-- Run a sequence of sync calls. -/
def applySyncOps (ops : List SyncOp) (s : Store) : Store :=
  ops.foldl (fun s op => applySyncOp op s) s

/-- The raw `conversationId` carried by a sync call's message. -/
def syncOpConversationId : SyncOp → Option String
  | .recv e => e.conversationId
  | .sent e _ => e.conversationId

/-- The contact fields read by the bulk-send template rendering. -/
structure DatasetContactRec where
  name : Option String
  email : String
  company : Option String
  customFields : List (String × String)
deriving DecidableEq, Repr

/-- JavaScript object-spread update: assigning an existing key keeps its
position and overwrites its value; a new key is appended. -/
def upsertKey (l : List (String × String)) (kv : String × String) :
    List (String × String) :=
  if l.any (fun p => p.1 == kv.1) then
    l.map (fun p => if p.1 == kv.1 then (p.1, kv.2) else p)
  else l ++ [kv]

/-- `{ ...base, ...extra }` for string-valued objects. -/
def spreadObj (base extra : List (String × String)) : List (String × String) :=
  extra.foldl upsertKey base

/-- `s.split(" ")` over the character list: split at every space character,
keeping empty fragments (so `"a  b"` gives `["a", "", "b"]` and `""` gives
`[""]`), as JavaScript `String.prototype.split` with a one-character
separator does. -/
def splitOnSpaceChars : List Char → List (List Char)
  | [] => [[]]
  | c :: cs =>
    if c = ' ' then [] :: splitOnSpaceChars cs
    else
      match splitOnSpaceChars cs with
      | t :: ts => (c :: t) :: ts
      | [] => [[c]]

/-- `xs.join(" ")` over character-list fragments. -/
def joinWithSpace : List (List Char) → List Char
  | [] => []
  | [x] => x
  | x :: xs => x ++ (' ' :: joinWithSpace xs)

/-- `contact.name?.split(" ")[0] || ""` — the text before the first space
character (the split is on `" "`, the single space character). -/
def jsFirstName (name : Option String) : String :=
  match name with
  | none => ""
  | some n =>
    match splitOnSpaceChars n.data with
    | t :: _ => ⟨t⟩
    | [] => ""

/-- `contact.name?.split(" ").slice(1).join(" ") || ""` — the space-split
fragments after the first, rejoined with single spaces (equivalently the
text after the first space character). -/
def jsLastName (name : Option String) : String :=
  match name with
  | none => ""
  | some n => ⟨joinWithSpace ((splitOnSpaceChars n.data).drop 1)⟩

/-- The `replacements` object of the bulk-send handler: the five built-in
keys (always present, empty-string defaults) spread-overridden by the
contact's custom fields. -/
def buildReplacements (c : DatasetContactRec) : List (String × String) :=
  spreadObj
    [("name", strOr c.name ""),
     ("email", c.email),
     ("company", strOr c.company ""),
     ("firstName", jsFirstName c.name),
     ("lastName", jsLastName c.name)]
    c.customFields

/-- Whether `pat` is a prefix of the character list. -/
def isPrefixOfChars : List Char → List Char → Bool
  | [], _ => true
  | _ :: _, [] => false
  | p :: ps, c :: cs => if p = c then isPrefixOfChars ps cs else false

/-- Global leftmost non-overlapping literal replacement over character
lists, the semantics of `String.prototype.replace` with a global literal
pattern.  `fuel` bounds the recursion (each step consumes at least one
input character, so `input.length + 1` is always enough); the recursion is
structural so that concrete instances evaluate. -/
def replaceAllFuel (pat repl : List Char) : Nat → List Char → List Char
  | 0, l => l
  | _ + 1, [] => []
  | fuel + 1, c :: cs =>
    if pat ≠ [] ∧ isPrefixOfChars pat (c :: cs) = true then
      repl ++ replaceAllFuel pat repl fuel ((c :: cs).drop pat.length)
    else c :: replaceAllFuel pat repl fuel cs

/-- Global literal replacement on strings. -/
def replaceAllStr (s pat repl : String) : String :=
  ⟨replaceAllFuel pat.data repl.data (s.data.length + 1) s.data⟩

/-- One step of the rendering loop: replace every occurrence of the token
for `key` by `value`.  The handler builds
`new RegExp("\\{\\{" + key + "\\}\\}", "g")` — a literal pattern for the
identifier keys used here — and applies a global replace. -/
def replaceToken (acc : String) (kv : String × String) : String :=
  replaceAllStr acc ("\x7b\x7b" ++ kv.1 ++ "\x7d\x7d") kv.2

/-- The bulk-send rendering loop over one template string:
`Object.entries(replacements).forEach(([key, value]) => { … = ….replace(regex, String(value)) })`. -/
def renderStr (tmpl : String) (reps : List (String × String)) : String :=
  reps.foldl replaceToken tmpl

/-- Render a template's subject and body against a contact, as the
bulk-send handler does. -/
def renderTemplate (subject body : String) (c : DatasetContactRec) :
    String × String :=
  let reps := buildReplacements c
  (renderStr subject reps, renderStr body reps)

/-- Database well-formedness: primary keys are pairwise distinct and below
the generator, and at most one thread exists per `conversationId` (the
`unique` constraint on `email_threads.conversation_id`).  Every store the
application builds from an empty database satisfies this. -/
structure WFStore (s : Store) : Prop where
  recvIds : (s.receivedEmails.map (fun r => r.id)).Nodup
  recvLt : ∀ r ∈ s.receivedEmails, r.id < s.nextId
  sentIds : (s.sentEmails.map (fun r => r.id)).Nodup
  sentLt : ∀ r ∈ s.sentEmails, r.id < s.nextId
  threadIds : (s.emailThreads.map (fun t => t.id)).Nodup
  threadLt : ∀ t ∈ s.emailThreads, t.id < s.nextId
  threadConvs : (s.emailThreads.map (fun t => t.conversationId)).Nodup

/-- The empty database. -/
def emptyStore : Store :=
  { receivedEmails := [], sentEmails := [], emailThreads := [], nextId := 0 }

/-- Demo sent message carrying a non-default suggested lead status. -/
def hotSentDemo : InsertSentEmail :=
  { messageId := some "m1", conversationId := some "c1",
    recipientEmail := "lead@x.com", subject := "Hello", body := "b",
    status := "sent", leadStatus := some "hot", sentAt := some 5 }

/-- Demo received message whose provider id is the empty string. -/
def recvEmptyIdA : InsertReceivedEmail :=
  { messageId := some "", conversationId := some "c", senderEmail := "a@x",
    subject := "s1", body := "b1", isRead := false, receivedAt := 1 }

/-- A second empty-id received message, distinct content. -/
def recvEmptyIdB : InsertReceivedEmail :=
  { messageId := some "", conversationId := some "c", senderEmail := "a@x",
    subject := "s2", body := "b2", isRead := false, receivedAt := 2 }

/-- The store after syncing the first empty-id message into an empty
database. -/
def storeAfterEmptyIdA : Store := (syncReceivedEmail recvEmptyIdA emptyStore).2

/-- Demo contact with name and company. -/
def contactJane : DatasetContactRec :=
  { name := some "Jane Doe", email := "jane@x.com", company := some "Acme",
    customFields := [] }

/-- Demo contact missing `company`. -/
def contactJaneNoCompany : DatasetContactRec := { contactJane with company := none }

/-- Demo contact whose name holds two consecutive spaces. -/
def contactJaneDoubleSpace : DatasetContactRec :=
  { contactJane with name := some "Jane  Doe" }

/-- Demo contact with a custom field colliding with the built-in
`company`. -/
def contactJaneCustom : DatasetContactRec :=
  { contactJane with customFields := [("company", "Beta")] }

/-- A legacy received row: stamped with a `conversationId` but never with a
`threadId`. -/
def legacyReceivedRow : ReceivedEmailRow :=
  { id := 1, messageId := none, conversationId := some "c",
    senderEmail := "l@x", subject := "old", body := "ob", isRead := true,
    receivedAt := 0, threadId := none }

/-- The thread of conversation `"c"`. -/
def threadCDemo : EmailThreadRow :=
  { id := 0, conversationId := "c", subject := "old",
    participantEmails := ["l@x"], leadStatus := "unassigned",
    messageCount := 0, unreadCount := 0, lastMessageAt := 0 }

/-- A store holding the thread of `"c"` and one legacy row on it. -/
def legacyStore : Store :=
  { receivedEmails := [legacyReceivedRow], sentEmails := [],
    emailThreads := [threadCDemo], nextId := 2 }

/-- A fresh received message on conversation `"c"`. -/
def freshRecvDemo : InsertReceivedEmail :=
  { messageId := some "m", conversationId := some "c", senderEmail := "a@x",
    subject := "s", body := "b", isRead := false, receivedAt := 3 }

/-- A thread whose provider conversation id is the empty string. -/
def threadEmptyConv : EmailThreadRow :=
  { id := 0, conversationId := "", subject := "s", participantEmails := [],
    leadStatus := "unassigned", messageCount := 1, unreadCount := 0,
    lastMessageAt := 0 }

/-- A received row attached to that thread by `threadId`. -/
def rowByThread : ReceivedEmailRow :=
  { id := 1, messageId := some "a", conversationId := some "",
    senderEmail := "a@x", subject := "sa", body := "ba", isRead := false,
    receivedAt := 1, threadId := some 0 }

/-- A legacy row carrying only the matching (empty) `conversationId`. -/
def rowLegacyConv : ReceivedEmailRow :=
  { id := 2, messageId := none, conversationId := some "",
    senderEmail := "b@x", subject := "sb", body := "bb", isRead := false,
    receivedAt := 2, threadId := none }

/-- Store with the empty-conversation thread and both rows. -/
def storeEmptyConv : Store :=
  { receivedEmails := [rowByThread, rowLegacyConv], sentEmails := [],
    emailThreads := [threadEmptyConv], nextId := 3 }

/-- A message the demo step fails on. -/
def failSyncMsg : InsertReceivedEmail :=
  { messageId := some "f", conversationId := some "c", senderEmail := "a@x",
    subject := "FAIL", body := "b", isRead := false, receivedAt := 1 }

/-- A message the demo step processes normally. -/
def okSyncMsg : InsertReceivedEmail :=
  { messageId := some "ok", conversationId := some "c", senderEmail := "a@x",
    subject := "fine", body := "b", isRead := false, receivedAt := 2 }

/-- Store with a single thread at `lastMessageAt = 10`, for the merge
witnesses. -/
def threadAt10 : EmailThreadRow :=
  { id := 0, conversationId := "c", subject := "s",
    participantEmails := ["a@x"], leadStatus := "hot", messageCount := 1,
    unreadCount := 0, lastMessageAt := 10 }

/-- Store holding only `threadAt10`. -/
def storeAt10 : Store :=
  { receivedEmails := [], sentEmails := [], emailThreads := [threadAt10],
    nextId := 1 }

/-- A merge candidate with an older timestamp. -/
def candAt3 : InsertEmailThread :=
  { conversationId := "c", subject := "s2", participantEmails := ["b@x"],
    leadStatus := "cold", lastMessageAt := 3, unreadCount := 0 }

/-- A merge candidate with a newer timestamp. -/
def candAt20 : InsertEmailThread := { candAt3 with lastMessageAt := 20 }

/-- A received message with a non-empty provider id, for the idempotency
witness. -/
def recvM1Demo : InsertReceivedEmail :=
  { messageId := some "m1", conversationId := some "c1",
    senderEmail := "a@x", subject := "Hello", body := "b", isRead := false,
    receivedAt := 7 }

/-- A sent message with a non-empty provider id and a present `sentAt`. -/
def sentM2Demo : InsertSentEmail :=
  { messageId := some "m2", conversationId := some "c1",
    recipientEmail := "r@x", subject := "Hello", body := "b",
    status := "sent", leadStatus := none, sentAt := some 9 }

/-- A received message with no provider conversation id. -/
def recvNoConvDemo : InsertReceivedEmail :=
  { messageId := some "ra", conversationId := none, senderEmail := "a@x",
    subject := "sa", body := "ba", isRead := false, receivedAt := 4 }

/-- A sent message with no provider conversation id. -/
def sentNoConvDemo : InsertSentEmail :=
  { messageId := some "sb", conversationId := none, recipientEmail := "r@x",
    subject := "sb", body := "bb", status := "sent", leadStatus := none,
    sentAt := some 6 }

theorem createOrUpdateThread_receivedEmails (c : InsertEmailThread) (s : Store) :
    (createOrUpdateThread c s).2.receivedEmails = s.receivedEmails := by
  unfold createOrUpdateThread
  split <;> rfl

theorem createOrUpdateThread_sentEmails (c : InsertEmailThread) (s : Store) :
    (createOrUpdateThread c s).2.sentEmails = s.sentEmails := by
  unfold createOrUpdateThread
  split <;> rfl

theorem createOrUpdateThread_nextId_le (c : InsertEmailThread) (s : Store) :
    s.nextId ≤ (createOrUpdateThread c s).2.nextId := by
  unfold createOrUpdateThread
  split <;> simp

theorem refreshThreadMessageCount_receivedEmails (tid : Nat) (s : Store) :
    (refreshThreadMessageCount tid s).receivedEmails = s.receivedEmails := rfl

theorem refreshThreadMessageCount_sentEmails (tid : Nat) (s : Store) :
    (refreshThreadMessageCount tid s).sentEmails = s.sentEmails := rfl

theorem refreshThreadMessageCount_nextId (tid : Nat) (s : Store) :
    (refreshThreadMessageCount tid s).nextId = s.nextId := rfl

theorem refreshThreadUnreadCount_receivedEmails (tid : Nat) (s : Store) :
    (refreshThreadUnreadCount tid s).receivedEmails = s.receivedEmails := rfl

theorem refreshThreadUnreadCount_sentEmails (tid : Nat) (s : Store) :
    (refreshThreadUnreadCount tid s).sentEmails = s.sentEmails := rfl

theorem refreshThreadUnreadCount_nextId (tid : Nat) (s : Store) :
    (refreshThreadUnreadCount tid s).nextId = s.nextId := rfl

theorem mem_dedupFirstAux (a : String) (seen l : List String) :
    a ∈ dedupFirstAux seen l ↔ a ∈ l ∧ a ∉ seen := by
  induction l generalizing seen with
  | nil => simp [dedupFirstAux]
  | cons x xs ih =>
    by_cases hx : x ∈ seen
    · rw [show dedupFirstAux seen (x :: xs) = dedupFirstAux seen xs from by
        simp [dedupFirstAux, hx], ih]
      constructor
      · rintro ⟨h1, h2⟩
        exact ⟨List.mem_cons_of_mem _ h1, h2⟩
      · rintro ⟨h1, h2⟩
        rcases List.mem_cons.mp h1 with rfl | h1
        · exact absurd hx h2
        · exact ⟨h1, h2⟩
    · rw [show dedupFirstAux seen (x :: xs) = x :: dedupFirstAux (x :: seen) xs from by
        simp [dedupFirstAux, hx]]
      constructor
      · intro hmem
        rcases List.mem_cons.mp hmem with rfl | hmem
        · exact ⟨List.mem_cons_self _ _, hx⟩
        · have h2 := (ih (x :: seen)).mp hmem
        
          exact ⟨List.mem_cons_of_mem _ h2.1, fun hs => h2.2 (List.mem_cons_of_mem _ hs)⟩
      · rintro ⟨h1, h2⟩
        rcases List.mem_cons.mp h1 with rfl | h1
        · exact List.mem_cons_self _ _
        · by_cases hax : a = x
          · exact hax ▸ List.mem_cons_self _ _
          · refine List.mem_cons_of_mem _ ((ih (x :: seen)).mpr ⟨h1, fun hs => ?_⟩)
            rcases List.mem_cons.mp hs with h | h
            · exact hax h
            · exact h2 h

theorem nodup_dedupFirstAux (seen l : List String) :
    (dedupFirstAux seen l).Nodup := by
  induction l generalizing seen with
  | nil => simp [dedupFirstAux]
  | cons x xs ih =>
    by_cases hx : x ∈ seen
    · simpa [dedupFirstAux, hx] using ih seen
    · rw [show dedupFirstAux seen (x :: xs) = x :: dedupFirstAux (x :: seen) xs from by
        simp [dedupFirstAux, hx]]
      refine List.nodup_cons.mpr ⟨fun hmem => ?_, ih _⟩
      exact ((mem_dedupFirstAux x _ xs).mp hmem).2 (List.mem_cons_self x seen)

theorem dedupFirstAux_append_mem (seen l : List String) (a : String)
    (hdis : ∀ x ∈ l, x ∉ seen) (hnd : l.Nodup) (ha : a ∈ l ∨ a ∈ seen) :
    dedupFirstAux seen (l ++ [a]) = l := by
  induction l generalizing seen with
  | nil =>
    rcases ha with h | h
    · cases h
    · simp [dedupFirstAux, h]
  | cons x xs ih =>
    have hxseen : x ∉ seen := hdis x (List.mem_cons_self x xs)
    rw [List.cons_append,
      show dedupFirstAux seen (x :: (xs ++ [a])) = x :: dedupFirstAux (x :: seen) (xs ++ [a]) from by
        simp [dedupFirstAux, hxseen]]
    have hnd' := List.nodup_cons.mp hnd
    congr 1
    refine ih (x :: seen) ?_ hnd'.2 ?_
    · intro y hy hmem
      rcases List.mem_cons.mp hmem with rfl | h
      · exact hnd'.1 hy
      · exact hdis y (List.mem_cons_of_mem _ hy) h
    · rcases ha with h | h
      · rcases List.mem_cons.mp h with rfl | h2
        · exact Or.inr (List.mem_cons_self a seen)
        · exact Or.inl h2
      · exact Or.inr (List.mem_cons_of_mem _ h)

theorem mem_dedupFirst (a : String) (l : List String) :
    a ∈ dedupFirst l ↔ a ∈ l := by
  simp [dedupFirst, mem_dedupFirstAux]

theorem nodup_dedupFirst (l : List String) : (dedupFirst l).Nodup :=
  nodup_dedupFirstAux [] l

theorem dedupFirst_append_singleton (l : List String) (a : String)
    (hnd : l.Nodup) (ha : a ∈ l) : dedupFirst (l ++ [a]) = l :=
  dedupFirstAux_append_mem [] l a (by simp) hnd (Or.inl ha)

theorem find?_map_pred {α : Type} (p : α → Bool) (f : α → α) (l : List α)
    (h : ∀ a ∈ l, p (f a) = p a) :
    (l.map f).find? p = (l.find? p).map f := by
  induction l with
  | nil => rfl
  | cons a l ih =>
    simp only [List.map_cons, List.find?_cons]
    rw [h a (List.mem_cons_self a l)]
    cases hp : p a
    · exact ih (fun x hx => h x (List.mem_cons_of_mem _ hx))
    · rfl

theorem map_key_eq {α β : Type} (l : List α) (f : α → α) (k : α → β)
    (h : ∀ a ∈ l, k (f a) = k a) : (l.map f).map k = l.map k := by
  rw [List.map_map]
  exact List.map_congr_left h

theorem map_eq_self {α : Type} (l : List α) (f : α → α)
    (h : ∀ a ∈ l, f a = a) : l.map f = l := by
  conv_rhs => rw [show l = l.map id from (List.map_id l).symm]
  exact List.map_congr_left h

/-- Claim C3, counterexample: the claim says a newly created thread gets
`leadStatus = unassigned` regardless of the candidate's suggested status.
In fact the create branch spreads the candidate into the insert, so a sent
message carrying `leadStatus = hot` synced into an empty store creates a
thread whose `leadStatus` is `hot`, not `unassigned`. -/
theorem create_thread_honors_candidate_leadStatus :
    (syncSentEmail hotSentDemo 100 emptyStore).2.emailThreads.map
      (fun t => t.leadStatus) = ["hot"] ∧
    ¬ (∀ t ∈ (syncSentEmail hotSentDemo 100 emptyStore).2.emailThreads,
        t.leadStatus = "unassigned") := by
  decide

/-- Claim C3, amended: for a candidate whose `conversationId` has no
existing thread, `createOrUpdateThread` inserts a new thread with
`messageCount = 0` and with `leadStatus` equal to the candidate's supplied
`leadStatus` (so a non-default status suggested by `syncSentEmail` is
honored at creation; `syncReceivedEmail` always suggests `unassigned`). -/
theorem create_thread_zero_count_candidate_status (cand : InsertEmailThread)
    (s : Store)
    (hnone : s.emailThreads.find?
      (fun t => t.conversationId == cand.conversationId) = none) :
    (createOrUpdateThread cand s).1.messageCount = 0 ∧
    (createOrUpdateThread cand s).1.leadStatus = cand.leadStatus ∧
    (createOrUpdateThread cand s).2.emailThreads =
      s.emailThreads ++ [(createOrUpdateThread cand s).1] := by
  simp [createOrUpdateThread, hnone]

/-- Witness for the amended C3 theorem at a concrete candidate. -/
theorem create_thread_zero_count_candidate_status_witness :
    (createOrUpdateThread candAt3 emptyStore).1.messageCount = 0 ∧
    (createOrUpdateThread candAt3 emptyStore).1.leadStatus = "cold" ∧
    (createOrUpdateThread candAt3 emptyStore).2.emailThreads =
      emptyStore.emailThreads ++ [(createOrUpdateThread candAt3 emptyStore).1] :=
  create_thread_zero_count_candidate_status candAt3 emptyStore rfl

/-- Helper: the merge branch of `createOrUpdateThread` returns a row with
the found thread's id and its unchanged `leadStatus`. -/
theorem merge_preserves_leadStatus (cand : InsertEmailThread) (s : Store)
    (t : EmailThreadRow)
    (hfind : s.emailThreads.find?
      (fun x => x.conversationId == cand.conversationId) = some t) :
    (createOrUpdateThread cand s).1.leadStatus = t.leadStatus ∧
    (createOrUpdateThread cand s).1.id = t.id := by
  unfold createOrUpdateThread
  rw [hfind]
  exact ⟨rfl, rfl⟩

/-- Claim C5: thread `lastMessageAt` is monotonic under merge — a candidate
timestamp at or before the stored one leaves it unchanged, a strictly later
one replaces it. -/
theorem merge_lastMessageAt_monotonic (cand : InsertEmailThread) (s : Store)
    (t : EmailThreadRow)
    (hfind : s.emailThreads.find?
      (fun x => x.conversationId == cand.conversationId) = some t) :
    (cand.lastMessageAt ≤ t.lastMessageAt →
      (createOrUpdateThread cand s).1.lastMessageAt = t.lastMessageAt) ∧
    (t.lastMessageAt < cand.lastMessageAt →
      (createOrUpdateThread cand s).1.lastMessageAt = cand.lastMessageAt) := by
  unfold createOrUpdateThread
  rw [hfind]
  constructor
  · intro h
    simp only
    rw [if_neg (by omega)]
  · intro h
    simp only
    rw [if_pos (by omega)]

/-- Witness for C5 at a concrete store: an older candidate (3 ≤ 10) leaves
the timestamp, a newer one (20 > 10) replaces it. -/
theorem merge_lastMessageAt_monotonic_witness :
    (createOrUpdateThread candAt3 storeAt10).1.lastMessageAt = 10 ∧
    (createOrUpdateThread candAt20 storeAt10).1.lastMessageAt = 20 :=
  ⟨(merge_lastMessageAt_monotonic candAt3 storeAt10 threadAt10 rfl).1 (by decide),
   (merge_lastMessageAt_monotonic candAt20 storeAt10 threadAt10 rfl).2 (by decide)⟩

/-- Claim C7, counterexample: the claim says an empty-string provider id
never dedup-matches any existing row, so every empty-id call inserts.  In
fact the first empty-id sync stores `messageId = ''`, and the second call's
lookup key `email.messageId || ''` equals `''` and matches that row: the
second call takes the update path (still one row, its content overwritten),
not the insert path. -/
theorem empty_messageId_matches_prior_row :
    storeAfterEmptyIdA.receivedEmails.length = 1 ∧
    (syncReceivedEmail recvEmptyIdB storeAfterEmptyIdA).2.receivedEmails.length = 1 ∧
    (syncReceivedEmail recvEmptyIdB storeAfterEmptyIdA).2.receivedEmails.map
      (fun r => r.body) = ["b2"] := by
  decide

/-- Claim C7, amended: the dedup lookup key for an absent or empty
`messageId` is the empty string.  A stored row whose `messageId` is NULL is
never matched by it (so absent-id rows never dedup), and as long as no row
was stored with `messageId = ''` such a call takes the insert path; but a
previously synced empty-string-id row is matched (see the counterexample). -/
theorem empty_key_dedup_amended (email : InsertReceivedEmail) (s : Store)
    (hid : email.messageId = none ∨ email.messageId = some "")
    (hnoempty : ∀ r ∈ s.receivedEmails, r.messageId ≠ some "") :
    (∀ r ∈ s.receivedEmails, r.messageId = none →
      (r.messageId == some (strOr email.messageId "")) = false) ∧
    (syncReceivedEmail email s).2.receivedEmails.length =
      s.receivedEmails.length + 1 := by
  have hkey : strOr email.messageId "" = "" := by
    rcases hid with h | h <;> simp [h, strOr]
  constructor
  · intro r _ hrn
    rw [hkey, hrn]
    rfl
  · have hfind : s.receivedEmails.find?
        (fun r => r.messageId == some (strOr email.messageId "")) = none := by
      rw [List.find?_eq_none]
      intro r hr
      rw [hkey]
      simpa using hnoempty r hr
    unfold syncReceivedEmail
    rw [hfind]
    simp [refreshThreadUnreadCount_receivedEmails,
      refreshThreadMessageCount_receivedEmails, createOrUpdateThread_receivedEmails]

/-- Witness for the amended C7 theorem: an absent-id message inserted into
the store already holding one absent-id row (stored as NULL) inserts again
rather than matching it. -/
theorem empty_key_dedup_amended_witness :
    (∀ r ∈ legacyStore.receivedEmails,
      r.messageId = none →
        (r.messageId ==
          some (strOr ({ freshRecvDemo with messageId := none } :
            InsertReceivedEmail).messageId "")) = false) ∧
    (syncReceivedEmail { freshRecvDemo with messageId := none }
        legacyStore).2.receivedEmails.length =
      legacyStore.receivedEmails.length + 1 :=
  empty_key_dedup_amended { freshRecvDemo with messageId := none } legacyStore
    (Or.inl rfl) (by decide)

/-- Claim C6, counterexample: the claim says a failure on one message skips
only that message and the pass continues.  In fact the sync handlers wrap
the whole batch loop in a single try/catch with no per-message catch: with
a batch whose first message fails, the pass aborts and the second message
is never synced, whereas the spec's skip-and-continue loop would have
synced it. -/
theorem sync_pass_abort_counterexample :
    routeSyncPass stepDemo [failSyncMsg, okSyncMsg] emptyStore =
      (emptyStore, true) ∧
    (routeSyncPass stepDemo [failSyncMsg, okSyncMsg]
        emptyStore).1.receivedEmails.length = 0 ∧
    (specSyncPassSkip stepDemo [failSyncMsg, okSyncMsg]
        emptyStore).receivedEmails.length = 1 := by
  decide

/-- Claim C6, amended: when one message of the batch fails, the pass aborts
at that message — everything the loop committed before the failure
persists, and every message after the failing one is left unprocessed. -/
theorem sync_pass_commits_prefix_aborts_rest {α : Type}
    (step : α → Store → Except String Store) (pre : List α) (e : α)
    (post : List α) (s s' : Store) (msg : String)
    (hpre : routeSyncPass step pre s = (s', false))
    (herr : step e s' = .error msg) :
    routeSyncPass step (pre ++ e :: post) s = (s', true) := by
  induction pre generalizing s with
  | nil =>
    simp only [routeSyncPass] at hpre
    cases hpre
    simp [routeSyncPass, herr]
  | cons a rest ih =>
    simp only [List.cons_append, routeSyncPass] at hpre ⊢
    cases hstep : step a s with
    | ok s1 =>
      rw [hstep] at hpre
      exact ih s1 hpre
    | error m =>
      rw [hstep] at hpre
      cases hpre

theorem setOpt_self {α : Type} (o : Option α) : setOpt o o = o := by
  cases o <;> rfl

theorem applyReceivedUpdate_rowOfInsert (email : InsertReceivedEmail)
    (i tid : Nat) :
    applyReceivedUpdate email (receivedRowOfInsert email i tid) tid =
      receivedRowOfInsert email i tid := by
  unfold applyReceivedUpdate receivedRowOfInsert
  simp [setOpt_self]

theorem applySentUpdate_rowOfInsert (email : InsertSentEmail) (now : Int)
    (i tid : Nat) :
    applySentUpdate email (sentRowOfInsert email now i tid) tid =
      sentRowOfInsert email now i tid := by
  unfold applySentUpdate sentRowOfInsert
  cases h : email.leadStatus <;> cases h2 : email.sentAt <;>
    cases h3 : email.messageId <;> cases h4 : email.conversationId <;>
      simp [setOpt]

theorem wf_emailThreads_map (s : Store) (hwf : WFStore s)
    (f : EmailThreadRow → EmailThreadRow)
    (hid : ∀ t ∈ s.emailThreads, (f t).id = t.id)
    (hconv : ∀ t ∈ s.emailThreads, (f t).conversationId = t.conversationId) :
    WFStore { s with emailThreads := s.emailThreads.map f } := by
  refine ⟨hwf.recvIds, hwf.recvLt, hwf.sentIds, hwf.sentLt, ?_, ?_, ?_⟩
  · show ((s.emailThreads.map f).map (fun t => t.id)).Nodup
    rw [map_key_eq _ f _ hid]
    exact hwf.threadIds
  · intro t ht
    rcases List.mem_map.mp ht with ⟨t0, ht0, rfl⟩
    show (f t0).id < s.nextId
    rw [hid t0 ht0]
    exact hwf.threadLt t0 ht0
  · show ((s.emailThreads.map f).map (fun t => t.conversationId)).Nodup
    rw [map_key_eq _ f _ hconv]
    exact hwf.threadConvs

theorem wf_receivedEmails_map (s : Store) (hwf : WFStore s)
    (f : ReceivedEmailRow → ReceivedEmailRow)
    (hid : ∀ r ∈ s.receivedEmails, (f r).id = r.id) :
    WFStore { s with receivedEmails := s.receivedEmails.map f } := by
  refine ⟨?_, ?_, hwf.sentIds, hwf.sentLt, hwf.threadIds, hwf.threadLt,
    hwf.threadConvs⟩
  · show ((s.receivedEmails.map f).map (fun r => r.id)).Nodup
    rw [map_key_eq _ f _ hid]
    exact hwf.recvIds
  · intro r hr
    rcases List.mem_map.mp hr with ⟨r0, hr0, rfl⟩
    show (f r0).id < s.nextId
    rw [hid r0 hr0]
    exact hwf.recvLt r0 hr0

theorem wf_sentEmails_map (s : Store) (hwf : WFStore s)
    (f : SentEmailRow → SentEmailRow)
    (hid : ∀ r ∈ s.sentEmails, (f r).id = r.id) :
    WFStore { s with sentEmails := s.sentEmails.map f } := by
  refine ⟨hwf.recvIds, hwf.recvLt, ?_, ?_, hwf.threadIds, hwf.threadLt,
    hwf.threadConvs⟩
  · show ((s.sentEmails.map f).map (fun r => r.id)).Nodup
    rw [map_key_eq _ f _ hid]
    exact hwf.sentIds
  · intro r hr
    rcases List.mem_map.mp hr with ⟨r0, hr0, rfl⟩
    show (f r0).id < s.nextId
    rw [hid r0 hr0]
    exact hwf.sentLt r0 hr0

theorem wf_insert_received (s : Store) (hwf : WFStore s) (r : ReceivedEmailRow)
    (hr : r.id = s.nextId) :
    WFStore { s with receivedEmails := s.receivedEmails ++ [r],
                     nextId := s.nextId + 1 } := by
  refine ⟨?_, ?_, hwf.sentIds, ?_, hwf.threadIds, ?_, hwf.threadConvs⟩
  · show ((s.receivedEmails ++ [r]).map (fun x => x.id)).Nodup
    rw [List.map_append]
    refine List.Nodup.append hwf.recvIds (by simp) ?_
    intro a ha hb
    rcases List.mem_map.mp ha with ⟨x, hx, rfl⟩
    simp only [List.map_cons, List.map_nil, List.mem_singleton] at hb
    have h1 : x.id < s.nextId := hwf.recvLt x hx
    rw [hb, hr] at h1
    exact absurd h1 (lt_irrefl _)
  · intro x hx
    rcases List.mem_append.mp hx with h | h
    · exact Nat.lt_succ_of_lt (hwf.recvLt x h)
    · rw [List.mem_singleton.mp h, hr]
      exact Nat.lt_succ_self _
  · intro e he
    exact Nat.lt_succ_of_lt (hwf.sentLt e he)
  · intro t ht
    exact Nat.lt_succ_of_lt (hwf.threadLt t ht)

theorem wf_insert_sent (s : Store) (hwf : WFStore s) (r : SentEmailRow)
    (hr : r.id = s.nextId) :
    WFStore { s with sentEmails := s.sentEmails ++ [r],
                     nextId := s.nextId + 1 } := by
  refine ⟨?_, ?_, ?_, ?_, hwf.threadIds, ?_, hwf.threadConvs⟩
  · exact hwf.recvIds
  · intro x hx
    exact Nat.lt_succ_of_lt (hwf.recvLt x hx)
  · show ((s.sentEmails ++ [r]).map (fun x => x.id)).Nodup
    rw [List.map_append]
    refine List.Nodup.append hwf.sentIds (by simp) ?_
    intro a ha hb
    rcases List.mem_map.mp ha with ⟨x, hx, rfl⟩
    simp only [List.map_cons, List.map_nil, List.mem_singleton] at hb
    have h1 : x.id < s.nextId := hwf.sentLt x hx
    rw [hb, hr] at h1
    exact absurd h1 (lt_irrefl _)
  · intro x hx
    rcases List.mem_append.mp hx with h | h
    · exact Nat.lt_succ_of_lt (hwf.sentLt x h)
    · rw [List.mem_singleton.mp h, hr]
      exact Nat.lt_succ_self _
  · intro t ht
    exact Nat.lt_succ_of_lt (hwf.threadLt t ht)

theorem wf_insert_thread (s : Store) (hwf : WFStore s) (t : EmailThreadRow)
    (ht : t.id = s.nextId)
    (hconv : ∀ x ∈ s.emailThreads, ¬ x.conversationId = t.conversationId) :
    WFStore { s with emailThreads := s.emailThreads ++ [t],
                     nextId := s.nextId + 1 } := by
  refine ⟨hwf.recvIds, ?_, hwf.sentIds, ?_, ?_, ?_, ?_⟩
  · intro x hx
    exact Nat.lt_succ_of_lt (hwf.recvLt x hx)
  · intro x hx
    exact Nat.lt_succ_of_lt (hwf.sentLt x hx)
  · show ((s.emailThreads ++ [t]).map (fun x => x.id)).Nodup
    rw [List.map_append]
    refine List.Nodup.append hwf.threadIds (by simp) ?_
    intro a ha hb
    rcases List.mem_map.mp ha with ⟨x, hx, rfl⟩
    simp only [List.map_cons, List.map_nil, List.mem_singleton] at hb
    have h1 : x.id < s.nextId := hwf.threadLt x hx
    rw [hb, ht] at h1
    exact absurd h1 (lt_irrefl _)
  · intro x hx
    rcases List.mem_append.mp hx with h | h
    · exact Nat.lt_succ_of_lt (hwf.threadLt x h)
    · rw [List.mem_singleton.mp h, ht]
      exact Nat.lt_succ_self _
  · show ((s.emailThreads ++ [t]).map (fun x => x.conversationId)).Nodup
    rw [List.map_append]
    refine List.Nodup.append hwf.threadConvs (by simp) ?_
    intro a ha hb
    rcases List.mem_map.mp ha with ⟨x, hx, rfl⟩
    simp only [List.map_cons, List.map_nil, List.mem_singleton] at hb
    exact hconv x hx hb

theorem createOrUpdateThread_spec (cand : InsertEmailThread) (s : Store)
    (hwf : WFStore s) :
    WFStore (createOrUpdateThread cand s).2 ∧
    (createOrUpdateThread cand s).2.emailThreads.find?
      (fun x => x.conversationId == cand.conversationId) =
        some (createOrUpdateThread cand s).1 ∧
    (createOrUpdateThread cand s).1.subject = cand.subject ∧
    cand.lastMessageAt ≤ (createOrUpdateThread cand s).1.lastMessageAt ∧
    (createOrUpdateThread cand s).1.id < (createOrUpdateThread cand s).2.nextId ∧
    ∀ a, cand.participantEmails = [a] →
      (createOrUpdateThread cand s).1.participantEmails.Nodup ∧
      a ∈ (createOrUpdateThread cand s).1.participantEmails := by
  cases hfind : s.emailThreads.find?
      (fun x => x.conversationId == cand.conversationId) with
  | none =>
    have hconvs : ∀ x ∈ s.emailThreads, ¬ x.conversationId = cand.conversationId := by
      intro x hx h
      have hpx := List.find?_eq_none.mp hfind x hx
      simp [h] at hpx
    unfold createOrUpdateThread
    rw [hfind]
    refine ⟨?_, ?_, rfl, le_refl _, ?_, ?_⟩
    · exact wf_insert_thread s hwf _ rfl (fun x hx h => hconvs x hx h)
    · rw [List.find?_append, hfind]
      simp [List.find?]
    · exact Nat.lt_succ_self _
    · intro a ha
      refine ⟨?_, ?_⟩
      · show cand.participantEmails.Nodup
        rw [ha]
        simp
      · show a ∈ cand.participantEmails
        rw [ha]
        simp
  | some t =>
    have htmem := List.mem_of_find?_eq_some hfind
    have htp := List.find?_some hfind
    unfold createOrUpdateThread
    rw [hfind]
    refine ⟨?_, ?_, rfl, ?_, ?_, ?_⟩
    · refine wf_emailThreads_map s hwf _ ?_ ?_
      · intro x hx
        dsimp only
        by_cases hbeq : (x.id == t.id) = true
        · rw [if_pos hbeq]
          exact (by simpa using hbeq : x.id = t.id).symm
        · rw [if_neg hbeq]
      · intro x hx
        dsimp only
        by_cases hbeq : (x.id == t.id) = true
        · have hxt : x = t :=
            List.inj_on_of_nodup_map hwf.threadIds hx htmem (by simpa using hbeq)
          rw [if_pos hbeq, hxt]
        · rw [if_neg hbeq]
    · rw [find?_map_pred _ _ _ ?_, hfind]
      · simp
      · intro x hx
        dsimp only
        by_cases hbeq : (x.id == t.id) = true
        · have hxt : x = t :=
            List.inj_on_of_nodup_map hwf.threadIds hx htmem (by simpa using hbeq)
          rw [if_pos hbeq, hxt]
        · rw [if_neg hbeq]
    · show cand.lastMessageAt ≤
        (if cand.lastMessageAt > t.lastMessageAt then cand.lastMessageAt
         else t.lastMessageAt)
      split <;> omega
    · exact hwf.threadLt t htmem
    · intro a ha
      refine ⟨nodup_dedupFirst _, ?_⟩
      show a ∈ dedupFirst (t.participantEmails ++ cand.participantEmails)
      rw [mem_dedupFirst, ha]
      simp

theorem createOrUpdateThread_merge_noop (cand : InsertEmailThread) (s : Store)
    (t : EmailThreadRow)
    (hfind : s.emailThreads.find?
      (fun x => x.conversationId == cand.conversationId) = some t)
    (htids : (s.emailThreads.map (fun x => x.id)).Nodup)
    (hsub : t.subject = cand.subject)
    (hlast : cand.lastMessageAt ≤ t.lastMessageAt)
    (hzero : cand.unreadCount = 0)
    (hps : dedupFirst (t.participantEmails ++ cand.participantEmails) =
      t.participantEmails) :
    createOrUpdateThread cand s = (t, s) := by
  have htmem := List.mem_of_find?_eq_some hfind
  have hupd : ({ t with
      subject := cand.subject
      lastMessageAt :=
        if cand.lastMessageAt > t.lastMessageAt then cand.lastMessageAt
        else t.lastMessageAt
      unreadCount :=
        if cand.unreadCount > 0 then t.unreadCount + cand.unreadCount
        else t.unreadCount
      participantEmails :=
        dedupFirst (t.participantEmails ++ cand.participantEmails) } :
      EmailThreadRow) = t := by
    rw [hps]
    rw [if_neg (show ¬ cand.lastMessageAt > t.lastMessageAt from by omega)]
    rw [if_neg (show ¬ cand.unreadCount > 0 from by omega)]
    rw [← hsub]
  unfold createOrUpdateThread
  rw [hfind]
  simp only [Prod.mk.injEq]
  constructor
  · exact hupd
  · have hmap : s.emailThreads.map
        (fun x => if x.id == t.id then
          ({ t with
            subject := cand.subject
            lastMessageAt :=
              if cand.lastMessageAt > t.lastMessageAt then cand.lastMessageAt
              else t.lastMessageAt
            unreadCount :=
              if cand.unreadCount > 0 then t.unreadCount + cand.unreadCount
              else t.unreadCount
            participantEmails :=
              dedupFirst (t.participantEmails ++ cand.participantEmails) } :
            EmailThreadRow)
          else x) = s.emailThreads := by
      apply map_eq_self
      intro x hx
      by_cases hbeq : (x.id == t.id) = true
      · have hxt : x = t :=
          List.inj_on_of_nodup_map htids hx htmem (by simpa using hbeq)
        rw [if_pos hbeq, hupd, hxt]
      · rw [if_neg hbeq]
    rw [hmap]

theorem syncReceivedEmail_stable (email : InsertReceivedEmail)
    (r : ReceivedEmailRow) (t : EmailThreadRow) (s : Store)
    (hrfind : s.receivedEmails.find?
      (fun x => x.messageId == some (strOr email.messageId "")) = some r)
    (hrids : (s.receivedEmails.map (fun x => x.id)).Nodup)
    (htids : (s.emailThreads.map (fun x => x.id)).Nodup)
    (htfind : s.emailThreads.find?
      (fun x => x.conversationId == strOr email.conversationId "") = some t)
    (hup : applyReceivedUpdate email r t.id = r)
    (hsub : t.subject = email.subject)
    (hlast : email.receivedAt ≤ t.lastMessageAt)
    (hnd : t.participantEmails.Nodup)
    (hmem : email.senderEmail ∈ t.participantEmails) :
    syncReceivedEmail email s = (r, s) := by
  have hrmem := List.mem_of_find?_eq_some hrfind
  have hnoop : createOrUpdateThread (receivedThreadCandidate email) s = (t, s) := by
    refine createOrUpdateThread_merge_noop _ s t htfind htids hsub hlast rfl ?_
    show dedupFirst (t.participantEmails ++ [email.senderEmail]) =
      t.participantEmails
    exact dedupFirst_append_singleton _ _ hnd hmem
  unfold syncReceivedEmail
  rw [hrfind, hnoop]
  simp only [Prod.mk.injEq]
  constructor
  · exact hup
  · rw [hup]
    have hmap : s.receivedEmails.map (fun x => if x.id == r.id then r else x) =
        s.receivedEmails := by
      apply map_eq_self
      intro x hx
      by_cases hbeq : (x.id == r.id) = true
      · have hxr : x = r :=
          List.inj_on_of_nodup_map hrids hx hrmem (by simpa using hbeq)
        rw [if_pos hbeq, hxr]
      · rw [if_neg hbeq]
    rw [hmap]

theorem syncSentEmail_stable (email : InsertSentEmail) (now : Int)
    (r : SentEmailRow) (t : EmailThreadRow) (s : Store)
    (hrfind : s.sentEmails.find?
      (fun x => x.messageId == some (strOr email.messageId "")) = some r)
    (hrids : (s.sentEmails.map (fun x => x.id)).Nodup)
    (htids : (s.emailThreads.map (fun x => x.id)).Nodup)
    (htfind : s.emailThreads.find?
      (fun x => x.conversationId == strOr email.conversationId "") = some t)
    (hup : applySentUpdate email r t.id = r)
    (hsub : t.subject = email.subject)
    (hlast : email.sentAt.getD now ≤ t.lastMessageAt)
    (hnd : t.participantEmails.Nodup)
    (hmem : email.recipientEmail ∈ t.participantEmails) :
    syncSentEmail email now s = (r, s) := by
  have hrmem := List.mem_of_find?_eq_some hrfind
  have hnoop : createOrUpdateThread (sentThreadCandidate email now) s = (t, s) := by
    refine createOrUpdateThread_merge_noop _ s t htfind htids hsub hlast rfl ?_
    show dedupFirst (t.participantEmails ++ [email.recipientEmail]) =
      t.participantEmails
    exact dedupFirst_append_singleton _ _ hnd hmem
  unfold syncSentEmail
  rw [hrfind, hnoop]
  simp only [Prod.mk.injEq]
  constructor
  · exact hup
  · rw [hup]
    have hmap : s.sentEmails.map (fun x => if x.id == r.id then r else x) =
        s.sentEmails := by
      apply map_eq_self
      intro x hx
      by_cases hbeq : (x.id == r.id) = true
      · have hxr : x = r :=
          List.inj_on_of_nodup_map hrids hx hrmem (by simpa using hbeq)
        rw [if_pos hbeq, hxr]
      · rw [if_neg hbeq]
    rw [hmap]

theorem find?_conv_preserved (l : List EmailThreadRow)
    (f : EmailThreadRow → EmailThreadRow)
    (hconv : ∀ x, (f x).conversationId = x.conversationId) (c : String) :
    (l.map f).find? (fun x => x.conversationId == c) =
      (l.find? (fun x => x.conversationId == c)).map f := by
  apply find?_map_pred
  intro a _
  dsimp only
  rw [hconv]

theorem syncReceivedEmail_insert_fst (email : InsertReceivedEmail) (s : Store)
    (hfind : s.receivedEmails.find?
      (fun x => x.messageId == some (strOr email.messageId "")) = none) :
    (syncReceivedEmail email s).1 =
      receivedRowOfInsert email
        (createOrUpdateThread (receivedThreadCandidate email) s).2.nextId
        (createOrUpdateThread (receivedThreadCandidate email) s).1.id := by
  unfold syncReceivedEmail
  rw [hfind]

theorem syncReceivedEmail_insert_snd (email : InsertReceivedEmail) (s : Store)
    (hfind : s.receivedEmails.find?
      (fun x => x.messageId == some (strOr email.messageId "")) = none) :
    (syncReceivedEmail email s).2 =
      refreshThreadUnreadCount
        (createOrUpdateThread (receivedThreadCandidate email) s).1.id
        (refreshThreadMessageCount
          (createOrUpdateThread (receivedThreadCandidate email) s).1.id
          { (createOrUpdateThread (receivedThreadCandidate email) s).2 with
            receivedEmails :=
              (createOrUpdateThread (receivedThreadCandidate email) s).2.receivedEmails ++
                [receivedRowOfInsert email
                  (createOrUpdateThread (receivedThreadCandidate email) s).2.nextId
                  (createOrUpdateThread (receivedThreadCandidate email) s).1.id]
            nextId :=
              (createOrUpdateThread (receivedThreadCandidate email) s).2.nextId + 1 }) := by
  unfold syncReceivedEmail
  rw [hfind]

theorem syncSentEmail_insert_fst (email : InsertSentEmail) (now : Int) (s : Store)
    (hfind : s.sentEmails.find?
      (fun x => x.messageId == some (strOr email.messageId "")) = none) :
    (syncSentEmail email now s).1 =
      sentRowOfInsert email now
        (createOrUpdateThread (sentThreadCandidate email now) s).2.nextId
        (createOrUpdateThread (sentThreadCandidate email now) s).1.id := by
  unfold syncSentEmail
  rw [hfind]

theorem syncSentEmail_insert_snd (email : InsertSentEmail) (now : Int) (s : Store)
    (hfind : s.sentEmails.find?
      (fun x => x.messageId == some (strOr email.messageId "")) = none) :
    (syncSentEmail email now s).2 =
      refreshThreadUnreadCount
        (createOrUpdateThread (sentThreadCandidate email now) s).1.id
        (refreshThreadMessageCount
          (createOrUpdateThread (sentThreadCandidate email now) s).1.id
          { (createOrUpdateThread (sentThreadCandidate email now) s).2 with
            sentEmails :=
              (createOrUpdateThread (sentThreadCandidate email now) s).2.sentEmails ++
                [sentRowOfInsert email now
                  (createOrUpdateThread (sentThreadCandidate email now) s).2.nextId
                  (createOrUpdateThread (sentThreadCandidate email now) s).1.id]
            nextId :=
              (createOrUpdateThread (sentThreadCandidate email now) s).2.nextId + 1 }) := by
  unfold syncSentEmail
  rw [hfind]

theorem wf_refreshMsg (tid : Nat) (s : Store) (hwf : WFStore s) :
    WFStore (refreshThreadMessageCount tid s) :=
  wf_emailThreads_map s hwf _
    (fun x _ => by split <;> rfl)
    (fun x _ => by split <;> rfl)

theorem wf_refreshUnread (tid : Nat) (s : Store) (hwf : WFStore s) :
    WFStore (refreshThreadUnreadCount tid s) :=
  wf_emailThreads_map s hwf _
    (fun x _ => by split <;> rfl)
    (fun x _ => by split <;> rfl)

theorem find?_conv_refreshMsg (tid : Nat) (s : Store) (c : String) :
    (refreshThreadMessageCount tid s).emailThreads.find?
      (fun x => x.conversationId == c) =
    (s.emailThreads.find? (fun x => x.conversationId == c)).map
      (fun t => if t.id == tid then
        { t with messageCount :=
            (s.sentEmails.filter (fun e => e.threadId == some tid)).length +
            (s.receivedEmails.filter (fun e => e.threadId == some tid)).length }
        else t) :=
  find?_conv_preserved _ _ (fun x => by split <;> rfl) c

theorem find?_conv_refreshUnread (tid : Nat) (s : Store) (c : String) :
    (refreshThreadUnreadCount tid s).emailThreads.find?
      (fun x => x.conversationId == c) =
    (s.emailThreads.find? (fun x => x.conversationId == c)).map
      (fun t => if t.id == tid then
        { t with unreadCount :=
            (s.receivedEmails.filter
              (fun e => e.threadId == some tid && e.isRead == false)).length }
        else t) :=
  find?_conv_preserved _ _ (fun x => by split <;> rfl) c

theorem find?_refreshMsg_self (tid : Nat) (s : Store) (c : String)
    (t : EmailThreadRow)
    (hfind : s.emailThreads.find? (fun x => x.conversationId == c) = some t)
    (ht : t.id = tid) :
    (refreshThreadMessageCount tid s).emailThreads.find?
      (fun x => x.conversationId == c) =
    some { t with messageCount :=
        (s.sentEmails.filter (fun e => e.threadId == some tid)).length +
        (s.receivedEmails.filter (fun e => e.threadId == some tid)).length } := by
  rw [find?_conv_refreshMsg, hfind, Option.map_some', if_pos (by simp [ht])]

theorem find?_refreshUnread_self (tid : Nat) (s : Store) (c : String)
    (t : EmailThreadRow)
    (hfind : s.emailThreads.find? (fun x => x.conversationId == c) = some t)
    (ht : t.id = tid) :
    (refreshThreadUnreadCount tid s).emailThreads.find?
      (fun x => x.conversationId == c) =
    some { t with unreadCount :=
        (s.receivedEmails.filter
          (fun e => e.threadId == some tid && e.isRead == false)).length } := by
  rw [find?_conv_refreshUnread, hfind, Option.map_some', if_pos (by simp [ht])]

theorem syncReceivedEmail_fresh (email : InsertReceivedEmail) (s : Store)
    (hwf : WFStore s)
    (hfind : s.receivedEmails.find?
      (fun x => x.messageId == some (strOr email.messageId "")) = none) :
    WFStore (syncReceivedEmail email s).2 ∧
    (syncReceivedEmail email s).2.receivedEmails =
      s.receivedEmails ++ [(syncReceivedEmail email s).1] ∧
    (syncReceivedEmail email s).2.sentEmails = s.sentEmails ∧
    ∃ T : EmailThreadRow,
      (syncReceivedEmail email s).2.emailThreads.find?
        (fun x => x.conversationId == strOr email.conversationId "") = some T ∧
      (syncReceivedEmail email s).1 =
        receivedRowOfInsert email
          (createOrUpdateThread (receivedThreadCandidate email) s).2.nextId T.id ∧
      T.subject = email.subject ∧
      email.receivedAt ≤ T.lastMessageAt ∧
      T.participantEmails.Nodup ∧
      email.senderEmail ∈ T.participantEmails ∧
      T.messageCount =
        ((syncReceivedEmail email s).2.sentEmails.filter
          (fun e => e.threadId == some T.id)).length +
        ((syncReceivedEmail email s).2.receivedEmails.filter
          (fun e => e.threadId == some T.id)).length := by
  obtain ⟨hwf1, hfind1, hsubj, hlastc, hidlt, hpart⟩ :=
    createOrUpdateThread_spec (receivedThreadCandidate email) s hwf
  obtain ⟨hndp, hmemp⟩ := hpart email.senderEmail rfl
  set X := createOrUpdateThread (receivedThreadCandidate email) s with hX
  have hfind2 : ({ X.2 with
      receivedEmails := X.2.receivedEmails ++
        [receivedRowOfInsert email X.2.nextId X.1.id]
      nextId := X.2.nextId + 1 } : Store).emailThreads.find?
      (fun x => x.conversationId == strOr email.conversationId "") = some X.1 :=
    hfind1
  have h3 := find?_refreshMsg_self X.1.id _ (strOr email.conversationId "")
    X.1 hfind2 rfl
  have h4 := find?_refreshUnread_self X.1.id _ (strOr email.conversationId "")
    _ h3 rfl
  refine ⟨?_, ?_, ?_, ?_⟩
  · rw [syncReceivedEmail_insert_snd email s hfind, ← hX]
    exact wf_refreshUnread _ _ (wf_refreshMsg _ _
      (wf_insert_received X.2 hwf1 _ rfl))
  · rw [syncReceivedEmail_insert_snd email s hfind,
        syncReceivedEmail_insert_fst email s hfind, ← hX,
        refreshThreadUnreadCount_receivedEmails,
        refreshThreadMessageCount_receivedEmails]
    show X.2.receivedEmails ++ [receivedRowOfInsert email X.2.nextId X.1.id] =
      s.receivedEmails ++ [receivedRowOfInsert email X.2.nextId X.1.id]
    rw [hX, createOrUpdateThread_receivedEmails]
  · rw [syncReceivedEmail_insert_snd email s hfind, ← hX,
        refreshThreadUnreadCount_sentEmails, refreshThreadMessageCount_sentEmails]
    show X.2.sentEmails = s.sentEmails
    rw [hX, createOrUpdateThread_sentEmails]
  · rw [syncReceivedEmail_insert_snd email s hfind,
        syncReceivedEmail_insert_fst email s hfind, ← hX]
    refine ⟨_, h4, rfl, hsubj, hlastc, hndp, hmemp, ?_⟩
    rw [refreshThreadUnreadCount_sentEmails, refreshThreadMessageCount_sentEmails,
        refreshThreadUnreadCount_receivedEmails,
        refreshThreadMessageCount_receivedEmails]

theorem syncSentEmail_fresh (email : InsertSentEmail) (now : Int) (s : Store)
    (hwf : WFStore s)
    (hfind : s.sentEmails.find?
      (fun x => x.messageId == some (strOr email.messageId "")) = none) :
    WFStore (syncSentEmail email now s).2 ∧
    (syncSentEmail email now s).2.sentEmails =
      s.sentEmails ++ [(syncSentEmail email now s).1] ∧
    (syncSentEmail email now s).2.receivedEmails = s.receivedEmails ∧
    ∃ T : EmailThreadRow,
      (syncSentEmail email now s).2.emailThreads.find?
        (fun x => x.conversationId == strOr email.conversationId "") = some T ∧
      (syncSentEmail email now s).1 =
        sentRowOfInsert email now
          (createOrUpdateThread (sentThreadCandidate email now) s).2.nextId T.id ∧
      T.subject = email.subject ∧
      email.sentAt.getD now ≤ T.lastMessageAt ∧
      T.participantEmails.Nodup ∧
      email.recipientEmail ∈ T.participantEmails ∧
      T.messageCount =
        ((syncSentEmail email now s).2.sentEmails.filter
          (fun e => e.threadId == some T.id)).length +
        ((syncSentEmail email now s).2.receivedEmails.filter
          (fun e => e.threadId == some T.id)).length := by
  obtain ⟨hwf1, hfind1, hsubj, hlastc, hidlt, hpart⟩ :=
    createOrUpdateThread_spec (sentThreadCandidate email now) s hwf
  obtain ⟨hndp, hmemp⟩ := hpart email.recipientEmail rfl
  set X := createOrUpdateThread (sentThreadCandidate email now) s with hX
  have hfind2 : ({ X.2 with
      sentEmails := X.2.sentEmails ++
        [sentRowOfInsert email now X.2.nextId X.1.id]
      nextId := X.2.nextId + 1 } : Store).emailThreads.find?
      (fun x => x.conversationId == strOr email.conversationId "") = some X.1 :=
    hfind1
  have h3 := find?_refreshMsg_self X.1.id _ (strOr email.conversationId "")
    X.1 hfind2 rfl
  have h4 := find?_refreshUnread_self X.1.id _ (strOr email.conversationId "")
    _ h3 rfl
  refine ⟨?_, ?_, ?_, ?_⟩
  · rw [syncSentEmail_insert_snd email now s hfind, ← hX]
    exact wf_refreshUnread _ _ (wf_refreshMsg _ _
      (wf_insert_sent X.2 hwf1 _ rfl))
  · rw [syncSentEmail_insert_snd email now s hfind,
        syncSentEmail_insert_fst email now s hfind, ← hX,
        refreshThreadUnreadCount_sentEmails,
        refreshThreadMessageCount_sentEmails]
    show X.2.sentEmails ++ [sentRowOfInsert email now X.2.nextId X.1.id] =
      s.sentEmails ++ [sentRowOfInsert email now X.2.nextId X.1.id]
    rw [hX, createOrUpdateThread_sentEmails]
  · rw [syncSentEmail_insert_snd email now s hfind, ← hX,
        refreshThreadUnreadCount_receivedEmails,
        refreshThreadMessageCount_receivedEmails]
    show X.2.receivedEmails = s.receivedEmails
    rw [hX, createOrUpdateThread_receivedEmails]
  · rw [syncSentEmail_insert_snd email now s hfind,
        syncSentEmail_insert_fst email now s hfind, ← hX]
    refine ⟨_, h4, rfl, hsubj, hlastc, hndp, hmemp, ?_⟩
    rw [refreshThreadUnreadCount_sentEmails, refreshThreadMessageCount_sentEmails,
        refreshThreadUnreadCount_receivedEmails,
        refreshThreadMessageCount_receivedEmails]

theorem syncReceivedIter_fixed (email : InsertReceivedEmail)
    (r : ReceivedEmailRow) (s : Store)
    (hfix : syncReceivedEmail email s = (r, s)) :
    ∀ n, syncReceivedIter email n s = s := by
  intro n
  induction n with
  | zero => rfl
  | succ k ih =>
    show syncReceivedIter email k (syncReceivedEmail email s).2 = s
    rw [hfix]
    exact ih

theorem syncSentIterClock_fixed (email : InsertSentEmail) (r : SentEmailRow)
    (clock : Nat → Int) (s : Store)
    (hfix : ∀ now, syncSentEmail email now s = (r, s)) :
    ∀ n, syncSentIterClock email clock n s = s := by
  intro n
  induction n with
  | zero => rfl
  | succ k ih =>
    show syncSentIterClock email clock k (syncSentEmail email (clock k) s).2 = s
    rw [hfix (clock k)]
    exact ih

theorem syncReceivedEmail_fresh_stable (email : InsertReceivedEmail) (s : Store)
    (hwf : WFStore s) (m : String) (hm : email.messageId = some m)
    (hne : ¬ m = "")
    (hfresh : s.receivedEmails.countP (fun x => x.messageId == some m) = 0) :
    syncReceivedEmail email (syncReceivedEmail email s).2 =
      ((syncReceivedEmail email s).1, (syncReceivedEmail email s).2) := by
  have hkey : strOr email.messageId "" = m := by
    rw [hm]
    simp [strOr, hne]
  have hfind0 : s.receivedEmails.find?
      (fun x => x.messageId == some (strOr email.messageId "")) = none := by
    rw [hkey, List.find?_eq_none]
    intro x hx
    exact List.countP_eq_zero.mp hfresh x hx
  obtain ⟨hwf1, hrecv, hsent, T, htfind, hrow, hsubj, hlast, hndp, hmemp, hcnt⟩ :=
    syncReceivedEmail_fresh email s hwf hfind0
  refine syncReceivedEmail_stable email (syncReceivedEmail email s).1 T
    (syncReceivedEmail email s).2 ?_ hwf1.recvIds hwf1.threadIds htfind ?_
    hsubj hlast hndp hmemp
  · rw [hrecv, List.find?_append, hfind0]
    show _ = some (syncReceivedEmail email s).1
    rw [hrow]
    simp [List.find?, receivedRowOfInsert, hm, strOr, hne]
  · rw [hrow]
    exact applyReceivedUpdate_rowOfInsert email _ T.id

theorem syncSentEmail_fresh_stable (email : InsertSentEmail) (now : Int)
    (s : Store) (hwf : WFStore s) (m : String) (ts : Int)
    (hm : email.messageId = some m) (hne : ¬ m = "")
    (hts : email.sentAt = some ts)
    (hfresh : s.sentEmails.countP (fun x => x.messageId == some m) = 0) :
    ∀ now2 : Int, syncSentEmail email now2 (syncSentEmail email now s).2 =
      ((syncSentEmail email now s).1, (syncSentEmail email now s).2) := by
  intro now2
  have hkey : strOr email.messageId "" = m := by
    rw [hm]
    simp [strOr, hne]
  have hfind0 : s.sentEmails.find?
      (fun x => x.messageId == some (strOr email.messageId "")) = none := by
    rw [hkey, List.find?_eq_none]
    intro x hx
    exact List.countP_eq_zero.mp hfresh x hx
  obtain ⟨hwf1, hsent, hrecv, T, htfind, hrow, hsubj, hlast, hndp, hmemp, hcnt⟩ :=
    syncSentEmail_fresh email now s hwf hfind0
  refine syncSentEmail_stable email now2 (syncSentEmail email now s).1 T
    (syncSentEmail email now s).2 ?_ hwf1.sentIds hwf1.threadIds htfind ?_
    hsubj ?_ hndp hmemp
  · rw [hsent, List.find?_append, hfind0]
    show _ = some (syncSentEmail email now s).1
    rw [hrow]
    simp [List.find?, sentRowOfInsert, hm, strOr, hne]
  · rw [hrow]
    exact applySentUpdate_rowOfInsert email now _ T.id
  · rw [hts] at hlast ⊢
    exact hlast

/-- Claim C1: sync dedup is idempotent.  For a raw message with a non-empty
provider id that is not yet in the store, running `syncReceivedEmail` (resp.
`syncSentEmail`, whose raw messages always carry their timestamp) N ≥ 1
times leaves exactly one row with that provider id, attached to a thread
whose `messageCount` is the authoritative recount in which that row is
counted exactly once. -/
theorem sync_dedup_idempotent
    (remail : InsertReceivedEmail) (semail : InsertSentEmail) (m ms : String)
    (sR sS : Store) (clock : Nat → Int) (n nS : Nat)
    (hwfR : WFStore sR) (hwfS : WFStore sS)
    (hm : remail.messageId = some m) (hmne : ¬ m = "")
    (hms : semail.messageId = some ms) (hmsne : ¬ ms = "")
    (ts : Int) (hts : semail.sentAt = some ts)
    (hfreshR : sR.receivedEmails.countP (fun x => x.messageId == some m) = 0)
    (hfreshS : sS.sentEmails.countP (fun x => x.messageId == some ms) = 0) :
    (∃ r T,
      (syncReceivedIter remail (n + 1) sR).receivedEmails.filter
        (fun x => x.messageId == some m) = [r] ∧
      T ∈ (syncReceivedIter remail (n + 1) sR).emailThreads ∧
      r.threadId = some T.id ∧
      r ∈ (syncReceivedIter remail (n + 1) sR).receivedEmails.filter
        (fun e => e.threadId == some T.id) ∧
      (syncReceivedIter remail (n + 1) sR).receivedEmails.countP
        (fun x => x.id == r.id) = 1 ∧
      T.messageCount =
        ((syncReceivedIter remail (n + 1) sR).sentEmails.filter
          (fun e => e.threadId == some T.id)).length +
        ((syncReceivedIter remail (n + 1) sR).receivedEmails.filter
          (fun e => e.threadId == some T.id)).length) ∧
    (∃ r T,
      (syncSentIterClock semail clock (nS + 1) sS).sentEmails.filter
        (fun x => x.messageId == some ms) = [r] ∧
      T ∈ (syncSentIterClock semail clock (nS + 1) sS).emailThreads ∧
      r.threadId = some T.id ∧
      r ∈ (syncSentIterClock semail clock (nS + 1) sS).sentEmails.filter
        (fun e => e.threadId == some T.id) ∧
      (syncSentIterClock semail clock (nS + 1) sS).sentEmails.countP
        (fun x => x.id == r.id) = 1 ∧
      T.messageCount =
        ((syncSentIterClock semail clock (nS + 1) sS).sentEmails.filter
          (fun e => e.threadId == some T.id)).length +
        ((syncSentIterClock semail clock (nS + 1) sS).receivedEmails.filter
          (fun e => e.threadId == some T.id)).length) := by
  constructor
  · have hfind0 : sR.receivedEmails.find?
        (fun x => x.messageId == some (strOr remail.messageId "")) = none := by
      rw [show strOr remail.messageId "" = m from by rw [hm]; simp [strOr, hmne],
        List.find?_eq_none]
      intro x hx
      exact List.countP_eq_zero.mp hfreshR x hx
    obtain ⟨hwf1, hrecv, hsent, T, htfind, hrow, hsubj, hlast, hndp, hmemp, hcnt⟩ :=
      syncReceivedEmail_fresh remail sR hwfR hfind0
    have hstab := syncReceivedEmail_fresh_stable remail sR hwfR m hm hmne hfreshR
    have hiter : syncReceivedIter remail (n + 1) sR =
        (syncReceivedEmail remail sR).2 := by
      show syncReceivedIter remail n (syncReceivedEmail remail sR).2 =
        (syncReceivedEmail remail sR).2
      exact syncReceivedIter_fixed remail _ _ hstab n
    rw [hiter]
    refine ⟨(syncReceivedEmail remail sR).1, T, ?_, ?_, ?_, ?_, ?_, hcnt⟩
    · rw [hrecv, List.filter_append]
      rw [List.filter_eq_nil_iff.mpr (List.countP_eq_zero.mp hfreshR)]
      rw [hrow]
      simp [receivedRowOfInsert, hm]
    · exact List.mem_of_find?_eq_some htfind
    · rw [hrow]
      rfl
    · rw [hrecv]
      refine List.mem_filter.mpr ⟨by simp, ?_⟩
      rw [hrow]
      simp [receivedRowOfInsert]
    · rw [hrecv, List.countP_append]
      have hr1id : (syncReceivedEmail remail sR).1.id =
          (createOrUpdateThread (receivedThreadCandidate remail) sR).2.nextId := by
        rw [hrow]
        rfl
      have h0 : sR.receivedEmails.countP
          (fun x => x.id == (syncReceivedEmail remail sR).1.id) = 0 := by
        rw [List.countP_eq_zero]
        intro x hx
        have hlt : x.id < sR.nextId := hwfR.recvLt x hx
        have hle := createOrUpdateThread_nextId_le (receivedThreadCandidate remail) sR
        rw [hr1id]
        simp only [beq_iff_eq]
        omega
      rw [h0]
      simp
  · have hfind0 : sS.sentEmails.find?
        (fun x => x.messageId == some (strOr semail.messageId "")) = none := by
      rw [show strOr semail.messageId "" = ms from by rw [hms]; simp [strOr, hmsne],
        List.find?_eq_none]
      intro x hx
      exact List.countP_eq_zero.mp hfreshS x hx
    obtain ⟨hwf1, hsent, hrecv, T, htfind, hrow, hsubj, hlast, hndp, hmemp, hcnt⟩ :=
      syncSentEmail_fresh semail (clock nS) sS hwfS hfind0
    have hstab := syncSentEmail_fresh_stable semail (clock nS) sS hwfS ms ts
      hms hmsne hts hfreshS
    have hiter : syncSentIterClock semail clock (nS + 1) sS =
        (syncSentEmail semail (clock nS) sS).2 := by
      show syncSentIterClock semail clock nS
          (syncSentEmail semail (clock nS) sS).2 =
        (syncSentEmail semail (clock nS) sS).2
      exact syncSentIterClock_fixed semail _ clock _ hstab nS
    rw [hiter]
    refine ⟨(syncSentEmail semail (clock nS) sS).1, T, ?_, ?_, ?_, ?_, ?_, hcnt⟩
    · rw [hsent, List.filter_append]
      rw [List.filter_eq_nil_iff.mpr (List.countP_eq_zero.mp hfreshS)]
      rw [hrow]
      simp [sentRowOfInsert, hms]
    · exact List.mem_of_find?_eq_some htfind
    · rw [hrow]
      rfl
    · rw [hsent]
      refine List.mem_filter.mpr ⟨by simp, ?_⟩
      rw [hrow]
      simp [sentRowOfInsert]
    · rw [hsent, List.countP_append]
      have hr1id : (syncSentEmail semail (clock nS) sS).1.id =
          (createOrUpdateThread (sentThreadCandidate semail (clock nS)) sS).2.nextId := by
        rw [hrow]
        rfl
      have h0 : sS.sentEmails.countP
          (fun x => x.id == (syncSentEmail semail (clock nS) sS).1.id) = 0 := by
        rw [List.countP_eq_zero]
        intro x hx
        have hlt : x.id < sS.nextId := hwfS.sentLt x hx
        have hle := createOrUpdateThread_nextId_le
          (sentThreadCandidate semail (clock nS)) sS
        rw [hr1id]
        simp only [beq_iff_eq]
        omega
      rw [h0]
      simp

theorem emptyStore_wf : WFStore emptyStore := by
  constructor <;> simp [emptyStore]

/-- Witness for C1: the idempotency theorem applied twice (N = 2) to a
received and a sent message over the empty store. -/
theorem sync_dedup_idempotent_witness :
    (∃ r T,
      (syncReceivedIter recvM1Demo 2 emptyStore).receivedEmails.filter
        (fun x => x.messageId == some "m1") = [r] ∧
      T ∈ (syncReceivedIter recvM1Demo 2 emptyStore).emailThreads ∧
      r.threadId = some T.id ∧
      r ∈ (syncReceivedIter recvM1Demo 2 emptyStore).receivedEmails.filter
        (fun e => e.threadId == some T.id) ∧
      (syncReceivedIter recvM1Demo 2 emptyStore).receivedEmails.countP
        (fun x => x.id == r.id) = 1 ∧
      T.messageCount =
        ((syncReceivedIter recvM1Demo 2 emptyStore).sentEmails.filter
          (fun e => e.threadId == some T.id)).length +
        ((syncReceivedIter recvM1Demo 2 emptyStore).receivedEmails.filter
          (fun e => e.threadId == some T.id)).length) ∧
    (∃ r T,
      (syncSentIterClock sentM2Demo (fun _ => 50) 2 emptyStore).sentEmails.filter
        (fun x => x.messageId == some "m2") = [r] ∧
      T ∈ (syncSentIterClock sentM2Demo (fun _ => 50) 2 emptyStore).emailThreads ∧
      r.threadId = some T.id ∧
      r ∈ (syncSentIterClock sentM2Demo (fun _ => 50) 2 emptyStore).sentEmails.filter
        (fun e => e.threadId == some T.id) ∧
      (syncSentIterClock sentM2Demo (fun _ => 50) 2 emptyStore).sentEmails.countP
        (fun x => x.id == r.id) = 1 ∧
      T.messageCount =
        ((syncSentIterClock sentM2Demo (fun _ => 50) 2 emptyStore).sentEmails.filter
          (fun e => e.threadId == some T.id)).length +
        ((syncSentIterClock sentM2Demo (fun _ => 50) 2 emptyStore).receivedEmails.filter
          (fun e => e.threadId == some T.id)).length) :=
  sync_dedup_idempotent recvM1Demo sentM2Demo "m1" "m2" emptyStore emptyStore
    (fun _ => 50) 1 1 emptyStore_wf emptyStore_wf rfl (by decide) rfl (by decide)
    9 rfl rfl rfl

/-- Witness for the amended C6 theorem: a two-message batch whose second
message fails commits the first and aborts. -/
theorem sync_pass_commits_prefix_aborts_rest_witness :
    routeSyncPass stepDemo [okSyncMsg, failSyncMsg] emptyStore =
      ((syncReceivedEmail okSyncMsg emptyStore).2, true) :=
  sync_pass_commits_prefix_aborts_rest stepDemo [okSyncMsg] failSyncMsg []
    emptyStore (syncReceivedEmail okSyncMsg emptyStore).2
    "thread resolution failed" rfl rfl

/-- Claim C2, counterexample: the claim says `messageCount` equals the
number of messages whose `threadId` OR `conversationId` matches the thread,
legacy `conversationId`-only rows included.  Syncing a fresh message into a
store holding one legacy row (`threadId` NULL, matching `conversationId`)
recounts only by `threadId`: the thread ends with `messageCount = 1`
although two rows match the claim's criterion. -/
theorem messageCount_ignores_legacy_rows :
    ((syncReceivedEmail freshRecvDemo legacyStore).2.emailThreads.map
      (fun t => t.messageCount)) = [1] ∧
    (((syncReceivedEmail freshRecvDemo legacyStore).2.sentEmails.filter
        (fun e => e.threadId == some 0 || e.conversationId == some "c")).length +
      ((syncReceivedEmail freshRecvDemo legacyStore).2.receivedEmails.filter
        (fun e => e.threadId == some 0 || e.conversationId == some "c")).length) = 2 ∧
    (1 : Nat) ≠ 2 := by
  decide

/-- Claim C2, amended: after a sync operation that inserts a message, the
owning thread's `messageCount` equals the number of sent plus received
rows whose `threadId` equals the thread's id — legacy rows carrying only a
matching `conversationId` and a NULL `threadId` are not counted. -/
theorem thread_messageCount_recount_after_insert
    (remail : InsertReceivedEmail) (semail : InsertSentEmail) (now : Int)
    (m ms : String) (sR sS : Store) (hwfR : WFStore sR) (hwfS : WFStore sS)
    (hm : remail.messageId = some m) (hmne : ¬ m = "")
    (hms : semail.messageId = some ms) (hmsne : ¬ ms = "")
    (hfreshR : sR.receivedEmails.countP (fun x => x.messageId == some m) = 0)
    (hfreshS : sS.sentEmails.countP (fun x => x.messageId == some ms) = 0) :
    (∃ T ∈ (syncReceivedEmail remail sR).2.emailThreads,
      (syncReceivedEmail remail sR).1.threadId = some T.id ∧
      T.messageCount =
        ((syncReceivedEmail remail sR).2.sentEmails.filter
          (fun e => e.threadId == some T.id)).length +
        ((syncReceivedEmail remail sR).2.receivedEmails.filter
          (fun e => e.threadId == some T.id)).length) ∧
    (∃ T ∈ (syncSentEmail semail now sS).2.emailThreads,
      (syncSentEmail semail now sS).1.threadId = some T.id ∧
      T.messageCount =
        ((syncSentEmail semail now sS).2.sentEmails.filter
          (fun e => e.threadId == some T.id)).length +
        ((syncSentEmail semail now sS).2.receivedEmails.filter
          (fun e => e.threadId == some T.id)).length) := by
  constructor
  · have hfind0 : sR.receivedEmails.find?
        (fun x => x.messageId == some (strOr remail.messageId "")) = none := by
      rw [show strOr remail.messageId "" = m from by rw [hm]; simp [strOr, hmne],
        List.find?_eq_none]
      intro x hx
      exact List.countP_eq_zero.mp hfreshR x hx
    obtain ⟨hwf1, hrecv, hsent, T, htfind, hrow, hsubj, hlast, hndp, hmemp, hcnt⟩ :=
      syncReceivedEmail_fresh remail sR hwfR hfind0
    refine ⟨T, List.mem_of_find?_eq_some htfind, ?_, hcnt⟩
    rw [hrow]
    rfl
  · have hfind0 : sS.sentEmails.find?
        (fun x => x.messageId == some (strOr semail.messageId "")) = none := by
      rw [show strOr semail.messageId "" = ms from by rw [hms]; simp [strOr, hmsne],
        List.find?_eq_none]
      intro x hx
      exact List.countP_eq_zero.mp hfreshS x hx
    obtain ⟨hwf1, hsent, hrecv, T, htfind, hrow, hsubj, hlast, hndp, hmemp, hcnt⟩ :=
      syncSentEmail_fresh semail now sS hwfS hfind0
    refine ⟨T, List.mem_of_find?_eq_some htfind, ?_, hcnt⟩
    rw [hrow]
    rfl

/-- Witness for the amended C2 theorem over the empty store. -/
theorem thread_messageCount_recount_after_insert_witness :
    (∃ T ∈ (syncReceivedEmail recvM1Demo emptyStore).2.emailThreads,
      (syncReceivedEmail recvM1Demo emptyStore).1.threadId = some T.id ∧
      T.messageCount =
        ((syncReceivedEmail recvM1Demo emptyStore).2.sentEmails.filter
          (fun e => e.threadId == some T.id)).length +
        ((syncReceivedEmail recvM1Demo emptyStore).2.receivedEmails.filter
          (fun e => e.threadId == some T.id)).length) ∧
    (∃ T ∈ (syncSentEmail sentM2Demo 50 emptyStore).2.emailThreads,
      (syncSentEmail sentM2Demo 50 emptyStore).1.threadId = some T.id ∧
      T.messageCount =
        ((syncSentEmail sentM2Demo 50 emptyStore).2.sentEmails.filter
          (fun e => e.threadId == some T.id)).length +
        ((syncSentEmail sentM2Demo 50 emptyStore).2.receivedEmails.filter
          (fun e => e.threadId == some T.id)).length) :=
  thread_messageCount_recount_after_insert recvM1Demo sentM2Demo 50 "m1" "m2"
    emptyStore emptyStore emptyStore_wf emptyStore_wf rfl (by decide) rfl
    (by decide) rfl rfl

/-- Claim C8, counterexample: the claim says `getThreadMessages` returns
every message matched by `threadId` or by `conversationId` equality with
the thread.  For a thread whose `conversationId` is the empty string the
code's truthiness check disables the fallback: a legacy row carrying the
matching (empty) `conversationId` is not returned. -/
theorem getThreadMessages_empty_conv_no_fallback :
    storeEmptyConv.emailThreads.find? (fun t => t.id == 0) = some threadEmptyConv ∧
    rowLegacyConv ∈ storeEmptyConv.receivedEmails ∧
    rowLegacyConv.conversationId = some threadEmptyConv.conversationId ∧
    ThreadMessage.received rowLegacyConv ∉ getThreadMessages 0 storeEmptyConv := by
  refine ⟨by decide, by decide, by decide, ?_⟩
  intro hmem
  simp only [getThreadMessages] at hmem
  rw [List.Perm.mem_iff (List.mergeSort_perm _ _)] at hmem
  revert hmem
  decide

/-- Claim C9, counterexample: the five built-in keys are always present in
the substitution map — a contact with no `company` contributes
`company ↦ ""`, so `\x7b\x7bcompany\x7d\x7d` is replaced by the empty
string rather than left as literal text; and `firstName`/`lastName` split
on the space character, not on general whitespace, so the `lastName` of
`"Jane  Doe"` (two spaces) renders as `" Doe"`, not `"Doe"`. -/
theorem template_missing_company_counterexample :
    renderStr "Hi \x7b\x7bfirstName\x7d\x7d, re \x7b\x7bcompany\x7d\x7d"
      (buildReplacements contactJaneNoCompany) = "Hi Jane, re " ∧
    ¬ ("Hi Jane, re " =
      "Hi Jane, re \x7b\x7bcompany\x7d\x7d") ∧
    renderStr "\x7b\x7blastName\x7d\x7d"
      (buildReplacements contactJaneDoubleSpace) = " Doe" ∧
    ¬ (" Doe" = "Doe") := by
  refine ⟨by decide, by decide, by decide, by decide⟩

/-- Claim C9, amended: the substitution map always holds the five built-in
keys (`name`, `email`, `company` defaulting to the empty string when the
contact lacks them; `firstName` = text before the first space character;
`lastName` = text after it), overlaid by the contact's custom fields which
win on collision; every `\x7b\x7bkey\x7d\x7d` occurrence for a map key is
replaced by its value (so a missing company yields an empty replacement,
not literal text), and only keys outside the map are left as literal
unresolved text. -/
theorem template_rendering_amended :
    (∀ (n : Option String) (e : String) (c : Option String),
      buildReplacements ⟨n, e, c, []⟩ =
        [("name", strOr n ""), ("email", e), ("company", strOr c ""),
         ("firstName", jsFirstName n), ("lastName", jsLastName n)]) ∧
    renderStr "Hi \x7b\x7bfirstName\x7d\x7d, re \x7b\x7bcompany\x7d\x7d"
      (buildReplacements contactJane) = "Hi Jane, re Acme" ∧
    renderStr "Hi \x7b\x7bfirstName\x7d\x7d, re \x7b\x7bcompany\x7d\x7d"
      (buildReplacements contactJaneNoCompany) = "Hi Jane, re " ∧
    renderStr "X \x7b\x7bfoo\x7d\x7d Y" (buildReplacements contactJane) =
      "X \x7b\x7bfoo\x7d\x7d Y" ∧
    renderStr "re \x7b\x7bcompany\x7d\x7d" (buildReplacements contactJaneCustom) =
      "re Beta" :=
  ⟨fun n e c => rfl, by decide, by decide, by decide, by decide⟩

theorem refreshMsg_threads (tid : Nat) (s : Store) :
    (refreshThreadMessageCount tid s).emailThreads =
      s.emailThreads.map (fun t => if t.id == tid then
        { t with messageCount :=
            (s.sentEmails.filter (fun e => e.threadId == some tid)).length +
            (s.receivedEmails.filter (fun e => e.threadId == some tid)).length }
        else t) := rfl

theorem refreshUnread_threads (tid : Nat) (s : Store) :
    (refreshThreadUnreadCount tid s).emailThreads =
      s.emailThreads.map (fun t => if t.id == tid then
        { t with unreadCount :=
            (s.receivedEmails.filter
              (fun e => e.threadId == some tid && e.isRead == false)).length }
        else t) := rfl

theorem syncReceivedEmail_update_snd (email : InsertReceivedEmail) (s : Store)
    (existing : ReceivedEmailRow)
    (hfind : s.receivedEmails.find?
      (fun x => x.messageId == some (strOr email.messageId "")) = some existing) :
    (syncReceivedEmail email s).2 =
      { (createOrUpdateThread (receivedThreadCandidate email) s).2 with
        receivedEmails :=
          (createOrUpdateThread (receivedThreadCandidate email) s).2.receivedEmails.map
            (fun r => if r.id == existing.id then
              applyReceivedUpdate email existing
                (createOrUpdateThread (receivedThreadCandidate email) s).1.id
              else r) } := by
  unfold syncReceivedEmail
  rw [hfind]

theorem syncSentEmail_update_snd (email : InsertSentEmail) (now : Int) (s : Store)
    (existing : SentEmailRow)
    (hfind : s.sentEmails.find?
      (fun x => x.messageId == some (strOr email.messageId "")) = some existing) :
    (syncSentEmail email now s).2 =
      { (createOrUpdateThread (sentThreadCandidate email now) s).2 with
        sentEmails :=
          (createOrUpdateThread (sentThreadCandidate email now) s).2.sentEmails.map
            (fun r => if r.id == existing.id then
              applySentUpdate email existing
                (createOrUpdateThread (sentThreadCandidate email now) s).1.id
              else r) } := by
  unfold syncSentEmail
  rw [hfind]

theorem wf_syncReceivedEmail (email : InsertReceivedEmail) (s : Store)
    (hwf : WFStore s) : WFStore (syncReceivedEmail email s).2 := by
  cases hfind : s.receivedEmails.find?
      (fun x => x.messageId == some (strOr email.messageId "")) with
  | none => exact (syncReceivedEmail_fresh email s hwf hfind).1
  | some existing =>
    rw [syncReceivedEmail_update_snd email s existing hfind]
    refine wf_receivedEmails_map _
      (createOrUpdateThread_spec (receivedThreadCandidate email) s hwf).1 _ ?_
    intro r _
    by_cases hbeq : (r.id == existing.id) = true
    · rw [if_pos hbeq]
      exact (by simpa using hbeq : r.id = existing.id).symm
    · rw [if_neg hbeq]

theorem wf_syncSentEmail (email : InsertSentEmail) (now : Int) (s : Store)
    (hwf : WFStore s) : WFStore (syncSentEmail email now s).2 := by
  cases hfind : s.sentEmails.find?
      (fun x => x.messageId == some (strOr email.messageId "")) with
  | none => exact (syncSentEmail_fresh email now s hwf hfind).1
  | some existing =>
    rw [syncSentEmail_update_snd email now s existing hfind]
    refine wf_sentEmails_map _
      (createOrUpdateThread_spec (sentThreadCandidate email now) s hwf).1 _ ?_
    intro r _
    by_cases hbeq : (r.id == existing.id) = true
    · rw [if_pos hbeq]
      exact (by simpa using hbeq : r.id = existing.id).symm
    · rw [if_neg hbeq]

theorem wf_applySyncOp (op : SyncOp) (s : Store) (hwf : WFStore s) :
    WFStore (applySyncOp op s) := by
  cases op with
  | recv e => exact wf_syncReceivedEmail e s hwf
  | sent e now => exact wf_syncSentEmail e now s hwf

theorem statusPreserved_map_goal (l : List EmailThreadRow)
    (f : EmailThreadRow → EmailThreadRow)
    (hid : ∀ x, (f x).id = x.id)
    (hstat : ∀ x, (f x).leadStatus = x.leadStatus)
    (t : EmailThreadRow)
    (h : ∃ t' ∈ l, t'.id = t.id ∧ t'.leadStatus = t.leadStatus) :
    ∃ t' ∈ l.map f, t'.id = t.id ∧ t'.leadStatus = t.leadStatus := by
  obtain ⟨t1, ht1, hid1, hst1⟩ := h
  exact ⟨f t1, List.mem_map_of_mem f ht1, (hid t1).trans hid1,
    (hstat t1).trans hst1⟩

theorem statusPreserved_createOrUpdateThread (c : InsertEmailThread) (s : Store)
    (hwf : WFStore s) (t : EmailThreadRow) (ht : t ∈ s.emailThreads) :
    ∃ t' ∈ (createOrUpdateThread c s).2.emailThreads,
      t'.id = t.id ∧ t'.leadStatus = t.leadStatus := by
  cases hfind : s.emailThreads.find?
      (fun x => x.conversationId == c.conversationId) with
  | none =>
    unfold createOrUpdateThread
    rw [hfind]
    exact ⟨t, by simp [ht], rfl, rfl⟩
  | some t0 =>
    have ht0mem := List.mem_of_find?_eq_some hfind
    unfold createOrUpdateThread
    rw [hfind]
    refine ⟨_, List.mem_map_of_mem _ ht, ?_, ?_⟩
    · by_cases hbeq : (t.id == t0.id) = true
      · have htt0 : t = t0 :=
          List.inj_on_of_nodup_map hwf.threadIds ht ht0mem (by simpa using hbeq)
        rw [if_pos hbeq, htt0]
      · rw [if_neg hbeq]
    · by_cases hbeq : (t.id == t0.id) = true
      · have htt0 : t = t0 :=
          List.inj_on_of_nodup_map hwf.threadIds ht ht0mem (by simpa using hbeq)
        rw [if_pos hbeq, htt0]
      · rw [if_neg hbeq]

theorem statusPreserved_syncReceived (email : InsertReceivedEmail) (s : Store)
    (hwf : WFStore s) (t : EmailThreadRow) (ht : t ∈ s.emailThreads) :
    ∃ t' ∈ (syncReceivedEmail email s).2.emailThreads,
      t'.id = t.id ∧ t'.leadStatus = t.leadStatus := by
  obtain ⟨t1, ht1, hid1, hst1⟩ :=
    statusPreserved_createOrUpdateThread (receivedThreadCandidate email) s hwf t ht
  cases hfind : s.receivedEmails.find?
      (fun x => x.messageId == some (strOr email.messageId "")) with
  | some existing =>
    rw [syncReceivedEmail_update_snd email s existing hfind]
    exact ⟨t1, ht1, hid1, hst1⟩
  | none =>
    rw [syncReceivedEmail_insert_snd email s hfind,
        refreshUnread_threads, refreshMsg_threads]
    refine statusPreserved_map_goal _ _ ?_ ?_ _
      (statusPreserved_map_goal _ _ ?_ ?_ _ ⟨t1, ht1, hid1, hst1⟩) <;>
      intro x <;> split <;> rfl

theorem statusPreserved_syncSent (email : InsertSentEmail) (now : Int) (s : Store)
    (hwf : WFStore s) (t : EmailThreadRow) (ht : t ∈ s.emailThreads) :
    ∃ t' ∈ (syncSentEmail email now s).2.emailThreads,
      t'.id = t.id ∧ t'.leadStatus = t.leadStatus := by
  obtain ⟨t1, ht1, hid1, hst1⟩ :=
    statusPreserved_createOrUpdateThread (sentThreadCandidate email now) s hwf t ht
  cases hfind : s.sentEmails.find?
      (fun x => x.messageId == some (strOr email.messageId "")) with
  | some existing =>
    rw [syncSentEmail_update_snd email now s existing hfind]
    exact ⟨t1, ht1, hid1, hst1⟩
  | none =>
    rw [syncSentEmail_insert_snd email now s hfind,
        refreshUnread_threads, refreshMsg_threads]
    refine statusPreserved_map_goal _ _ ?_ ?_ _
      (statusPreserved_map_goal _ _ ?_ ?_ _ ⟨t1, ht1, hid1, hst1⟩) <;>
      intro x <;> split <;> rfl

theorem statusPreserved_applySyncOps (ops : List SyncOp) (s : Store)
    (hwf : WFStore s) (t : EmailThreadRow) (ht : t ∈ s.emailThreads) :
    ∃ t' ∈ (applySyncOps ops s).emailThreads,
      t'.id = t.id ∧ t'.leadStatus = t.leadStatus := by
  induction ops generalizing s t with
  | nil => exact ⟨t, ht, rfl, rfl⟩
  | cons op rest ih =>
    have hwf1 := wf_applySyncOp op s hwf
    have hstep : ∃ t' ∈ (applySyncOp op s).emailThreads,
        t'.id = t.id ∧ t'.leadStatus = t.leadStatus := by
      cases op with
      | recv e => exact statusPreserved_syncReceived e s hwf t ht
      | sent e now => exact statusPreserved_syncSent e now s hwf t ht
    obtain ⟨t1, ht1, hid1, hst1⟩ := hstep
    obtain ⟨t2, ht2, hid2, hst2⟩ := ih (applySyncOp op s) hwf1 t1 ht1
    exact ⟨t2, ht2, hid2.trans hid1, hst2.trans hst1⟩

/-- Claim C4: the merge branch of `createOrUpdateThread` leaves the found
thread's `leadStatus` unchanged whatever the candidate supplies, and
consequently a thread whose status was set through `updateThreadStatus`
still carries exactly that status (same id) after any sequence of
`syncReceivedEmail`/`syncSentEmail` calls on its conversation id. -/
theorem lead_status_stable_across_sync (s : Store) (hwf : WFStore s)
    (t : EmailThreadRow) (ht : t ∈ s.emailThreads) (v : String)
    (ops : List SyncOp)
    (hops : ∀ op ∈ ops, syncOpConversationId op = some t.conversationId) :
    (∀ (cand : InsertEmailThread) (t0 : EmailThreadRow),
      s.emailThreads.find?
        (fun x => x.conversationId == cand.conversationId) = some t0 →
      (createOrUpdateThread cand s).1.leadStatus = t0.leadStatus) ∧
    ∃ t' ∈ (applySyncOps ops (updateThreadStatus t.id v s)).emailThreads,
      t'.id = t.id ∧ t'.leadStatus = v := by
  constructor
  · intro cand t0 hfind
    exact (merge_preserves_leadStatus cand s t0 hfind).1
  · have hwfU : WFStore (updateThreadStatus t.id v s) :=
      wf_emailThreads_map s hwf _
        (fun x _ => by split <;> rfl)
        (fun x _ => by split <;> rfl)
    have hmem1 : ∃ u ∈ (updateThreadStatus t.id v s).emailThreads,
        u.id = t.id ∧ u.leadStatus = v := by
      refine ⟨_, List.mem_map_of_mem _ ht, ?_, ?_⟩
      · rw [if_pos (show (t.id == t.id) = true by simp)]
      · rw [if_pos (show (t.id == t.id) = true by simp)]
    obtain ⟨u, hu, huid, hust⟩ := hmem1
    obtain ⟨t', ht', hid', hst'⟩ :=
      statusPreserved_applySyncOps ops _ hwfU u hu
    exact ⟨t', ht', hid'.trans huid, hst'.trans hust⟩

/-- Witness for C4: a thread set to `hot` by `updateThreadStatus` keeps
`hot` after a received and a sent sync on its conversation id. -/
theorem lead_status_stable_across_sync_witness :
    (∀ (cand : InsertEmailThread) (t0 : EmailThreadRow),
      storeAt10.emailThreads.find?
        (fun x => x.conversationId == cand.conversationId) = some t0 →
      (createOrUpdateThread cand storeAt10).1.leadStatus = t0.leadStatus) ∧
    ∃ t' ∈ (applySyncOps [SyncOp.recv freshRecvDemo, SyncOp.sent { sentM2Demo with conversationId := some "c" } 60]
        (updateThreadStatus 0 "hot" storeAt10)).emailThreads,
      t'.id = 0 ∧ t'.leadStatus = "hot" :=
  lead_status_stable_across_sync storeAt10 (by constructor <;> decide)
    threadAt10 (by decide) "hot"
    [SyncOp.recv freshRecvDemo, SyncOp.sent { sentM2Demo with conversationId := some "c" } 60] (by decide)

/-- Claim C10: two raw messages with absent provider conversation ids (one
received, one sent, both fresh) are both coerced to the empty-string
conversation and attached to the same single thread, whose
`conversationId` is the empty string. -/
theorem missing_conversation_ids_collapse
    (remail : InsertReceivedEmail) (semail : InsertSentEmail) (now : Int)
    (m ms : String) (s : Store) (hwf : WFStore s)
    (hrc : remail.conversationId = none) (hsc : semail.conversationId = none)
    (hm : remail.messageId = some m) (hmne : ¬ m = "")
    (hms : semail.messageId = some ms) (hmsne : ¬ ms = "")
    (hfreshR : s.receivedEmails.countP (fun x => x.messageId == some m) = 0)
    (hfreshS : s.sentEmails.countP (fun x => x.messageId == some ms) = 0) :
    ∃ tid,
      (syncReceivedEmail remail s).1.threadId = some tid ∧
      (syncSentEmail semail now (syncReceivedEmail remail s).2).1.threadId =
        some tid ∧
      (syncReceivedEmail remail s).1 ∈
        (syncSentEmail semail now
          (syncReceivedEmail remail s).2).2.receivedEmails ∧
      ∃ T ∈ (syncSentEmail semail now
          (syncReceivedEmail remail s).2).2.emailThreads,
        T.id = tid ∧ T.conversationId = "" := by
  have hfind0R : s.receivedEmails.find?
      (fun x => x.messageId == some (strOr remail.messageId "")) = none := by
    rw [show strOr remail.messageId "" = m from by rw [hm]; simp [strOr, hmne],
      List.find?_eq_none]
    intro x hx
    exact List.countP_eq_zero.mp hfreshR x hx
  obtain ⟨hwf1, hrecv1, hsent1, T1, htfind1, hrow1, hsubj1, hlast1, hndp1,
    hmemp1, hcnt1⟩ := syncReceivedEmail_fresh remail s hwf hfind0R
  have hfind0S : (syncReceivedEmail remail s).2.sentEmails.find?
      (fun x => x.messageId == some (strOr semail.messageId "")) = none := by
    rw [hsent1,
      show strOr semail.messageId "" = ms from by rw [hms]; simp [strOr, hmsne],
      List.find?_eq_none]
    intro x hx
    exact List.countP_eq_zero.mp hfreshS x hx
  obtain ⟨hwf2, hsent2, hrecv2, T2, htfind2, hrow2, hsubj2, hlast2, hndp2,
    hmemp2, hcnt2⟩ :=
    syncSentEmail_fresh semail now (syncReceivedEmail remail s).2 hwf1 hfind0S
  have htfind1' : (syncReceivedEmail remail s).2.emailThreads.find?
      (fun x => x.conversationId == strOr semail.conversationId "") =
        some T1 := by
    rw [hsc]
    rw [hrc] at htfind1
    exact htfind1
  have hXid : (createOrUpdateThread (sentThreadCandidate semail now)
      (syncReceivedEmail remail s).2).1.id = T1.id :=
    (merge_preserves_leadStatus (sentThreadCandidate semail now)
      (syncReceivedEmail remail s).2 T1 htfind1').2
  have h5 : sentRowOfInsert semail now
      (createOrUpdateThread (sentThreadCandidate semail now)
        (syncReceivedEmail remail s).2).2.nextId T2.id =
    sentRowOfInsert semail now
      (createOrUpdateThread (sentThreadCandidate semail now)
        (syncReceivedEmail remail s).2).2.nextId
      (createOrUpdateThread (sentThreadCandidate semail now)
        (syncReceivedEmail remail s).2).1.id :=
    hrow2.symm.trans
      (syncSentEmail_insert_fst semail now (syncReceivedEmail remail s).2 hfind0S)
  have hT2id : T2.id = (createOrUpdateThread (sentThreadCandidate semail now)
      (syncReceivedEmail remail s).2).1.id := by
    have h6 := congrArg (fun r => r.threadId) h5
    simpa [sentRowOfInsert] using h6
  refine ⟨T1.id, ?_, ?_, ?_, T2, List.mem_of_find?_eq_some htfind2, ?_, ?_⟩
  · rw [hrow1]
    rfl
  · rw [hrow2]
    show some T2.id = some T1.id
    rw [hT2id, hXid]
  · rw [hrecv2, hrecv1]
    simp
  · rw [hT2id, hXid]
  · have h7 := List.find?_some htfind2
    rw [hsc] at h7
    simpa using h7

/-- Witness for C10: a received and a sent message, both without a
conversation id, synced into the empty store end on one thread whose
conversation id is the empty string. -/
theorem missing_conversation_ids_collapse_witness :
    ∃ tid,
      (syncReceivedEmail recvNoConvDemo emptyStore).1.threadId = some tid ∧
      (syncSentEmail sentNoConvDemo 70
        (syncReceivedEmail recvNoConvDemo emptyStore).2).1.threadId =
          some tid ∧
      (syncReceivedEmail recvNoConvDemo emptyStore).1 ∈
        (syncSentEmail sentNoConvDemo 70
          (syncReceivedEmail recvNoConvDemo emptyStore).2).2.receivedEmails ∧
      ∃ T ∈ (syncSentEmail sentNoConvDemo 70
          (syncReceivedEmail recvNoConvDemo emptyStore).2).2.emailThreads,
        T.id = tid ∧ T.conversationId = "" :=
  missing_conversation_ids_collapse recvNoConvDemo sentNoConvDemo 70 "ra" "sb"
    emptyStore emptyStore_wf rfl rfl rfl (by decide) rfl (by decide) rfl rfl

/-- Claim C8, amended: `getThreadMessages` returns exactly the sent and
received rows whose `threadId` equals the requested id or — only when the
thread row exists and its `conversationId` is non-empty — whose
`conversationId` equals the thread's, sorted ascending by `occurredKey`
(`sentAt` for sent rows, `receivedAt` for received, null as epoch zero). -/
theorem getThreadMessages_spec (tid : Nat) (s : Store) :
    List.Pairwise (fun a b => occurredKey a ≤ occurredKey b)
      (getThreadMessages tid s) ∧
    (∀ e : SentEmailRow, ThreadMessage.sent e ∈ getThreadMessages tid s ↔
      e ∈ s.sentEmails ∧
        (e.threadId = some tid ∨
          ∃ t, s.emailThreads.find? (fun x => x.id == tid) = some t ∧
            ¬ t.conversationId = "" ∧ e.conversationId = some t.conversationId)) ∧
    (∀ e : ReceivedEmailRow, ThreadMessage.received e ∈ getThreadMessages tid s ↔
      e ∈ s.receivedEmails ∧
        (e.threadId = some tid ∨
          ∃ t, s.emailThreads.find? (fun x => x.id == tid) = some t ∧
            ¬ t.conversationId = "" ∧ e.conversationId = some t.conversationId)) := by
  refine ⟨?_, ?_, ?_⟩
  · simp only [getThreadMessages]
    refine List.Pairwise.imp ?_ (List.sorted_mergeSort ?_ ?_ _)
    · intro a b h
      exact of_decide_eq_true h
    · intro a b c hab hbc
      rw [decide_eq_true_eq] at hab hbc ⊢
      omega
    · intro a b
      rw [Bool.or_eq_true, decide_eq_true_eq, decide_eq_true_eq]
      omega
  · intro e
    simp only [getThreadMessages]
    rw [List.Perm.mem_iff (List.mergeSort_perm _ _), List.mem_append]
    cases hfind : s.emailThreads.find? (fun x => x.id == tid) with
    | none =>
      simp [hfind, List.mem_filter]
    | some t =>
      by_cases hc : t.conversationId = ""
      · simp [hfind, hc, List.mem_filter]
      · simp [hfind, hc, List.mem_filter]
  · intro e
    simp only [getThreadMessages]
    rw [List.Perm.mem_iff (List.mergeSort_perm _ _), List.mem_append]
    cases hfind : s.emailThreads.find? (fun x => x.id == tid) with
    | none =>
      simp [hfind, List.mem_filter]
    | some t =>
      by_cases hc : t.conversationId = ""
      · simp [hfind, hc, List.mem_filter]
      · simp [hfind, hc, List.mem_filter]
